import Mathlib

unseal Rat.add Rat.sub Rat.mul Rat.inv

/-!
Shallow embedding of the `tool-using-llm` repository (files `tool_agent.py`,
`tools.py`, `llm.py`) and verification of its specification claims.

Python strings are modelled as `List Char`, Python/JSON values as the mutual
`Json` inductive below (numbers idealized as exact rationals: the model does
not track Python's int/float distinction or IEEE rounding), and Python
`dict`s as association lists with distinct keys kept in insertion order
(`JObj`).
-/

namespace ToolLLM

abbrev Str := List Char

mutual

/-- A JSON / Python value as produced by `json.loads`. -/
inductive Json where
  | null : Json
  | bool (b : Bool) : Json
  | num (q : ℚ) : Json
  | str (s : Str) : Json
  | arr (elems : JArr) : Json
  | obj (kvs : JObj) : Json
deriving DecidableEq

/-- A JSON array's element list. -/
inductive JArr where
  | nil : JArr
  | cons (hd : Json) (tl : JArr) : JArr
deriving DecidableEq

/-- A JSON object / Python dict: key-value entries in insertion order. -/
inductive JObj where
  | nil : JObj
  | cons (key : Str) (val : Json) (tl : JObj) : JObj
deriving DecidableEq

end

instance : Inhabited Json := ⟨Json.null⟩

instance : Inhabited JArr := ⟨JArr.nil⟩

instance : Inhabited JObj := ⟨JObj.nil⟩

/-- Entries of an object as a plain list of pairs, for stating properties. -/
def JObj.toList : JObj → List (Str × Json)
  | .nil => []
  | .cons k v t => (k, v) :: JObj.toList t

def JObj.ofList : List (Str × Json) → JObj
  | [] => .nil
  | (k, v) :: t => .cons k v (JObj.ofList t)

def JArr.toList : JArr → List Json
  | .nil => []
  | .cons x t => x :: JArr.toList t

def JArr.ofList : List Json → JArr
  | [] => .nil
  | x :: t => .cons x (JArr.ofList t)

def JObj.length : JObj → Nat
  | .nil => 0
  | .cons _ _ t => JObj.length t + 1

def JArr.length : JArr → Nat
  | .nil => 0
  | .cons _ t => JArr.length t + 1

/-- Python truthiness of a value (`if x:`): `None`, `False`, `0`, the empty
string, the empty list and the empty dict are falsy, all else truthy. -/
def Json.truthy : Json → Bool
  | .null => false
  | .bool b => b
  | .num q => decide (q ≠ 0)
  | .str s => !s.isEmpty
  | .arr .nil => false
  | .arr (.cons _ _) => true
  | .obj .nil => false
  | .obj (.cons _ _ _) => true

/-- First-match lookup; Python dicts have unique keys, so this is `d[k]`
when the key is present. -/
def JObj.get : JObj → Str → Option Json
  | .nil, _ => none
  | .cons k' v rest, k => if k' = k then some v else JObj.get rest k

/-- Python `d.get(k, default)`. -/
def JObj.getD (kvs : JObj) (k : Str) (d : Json) : Json :=
  (kvs.get k).getD d

/-- Insert a key into a Python dict: overwrite in place when the key exists
(keeping first-insertion order), otherwise append.  This is how `json.loads`
builds objects, so duplicate keys in the source text resolve to the last
value. -/
def JObj.insert : JObj → Str → Json → JObj
  | .nil, k, v => .cons k v .nil
  | .cons k' v' rest, k, v =>
      if k' = k then .cons k v rest else .cons k' v' (JObj.insert rest k v)

/-! ## A strict JSON parser, modelling Python's `json.loads`.

The nonstandard CPython extensions `NaN` / `Infinity` / `-Infinity` are not
modelled (they have no finite rational value); no claim involves them.
Escaped lone surrogates, which Python keeps as unpaired code units, are
clamped by `Char.ofNat`; no claim involves them either. -/

/-- JSON whitespace (the characters `json.loads` skips between tokens). -/
def isJsonWs (c : Char) : Bool :=
  c = ' ' ∨ c = '\t' ∨ c = '\n' ∨ c = '\r'

def skipWs (s : List Char) : List Char :=
  s.dropWhile isJsonWs

def hexVal (c : Char) : Option Nat :=
  if '0' ≤ c ∧ c ≤ '9' then some (c.toNat - '0'.toNat)
  else if 'a' ≤ c ∧ c ≤ 'f' then some (c.toNat - 'a'.toNat + 10)
  else if 'A' ≤ c ∧ c ≤ 'F' then some (c.toNat - 'A'.toNat + 10)
  else none

/-- Body of a JSON string literal (after the opening quote), with escape
processing, strict rejection of raw control characters, and surrogate-pair
combination for `\uXXXX` escapes.  Fueled (each step consumes at least one
character, so fuel `length + 1` is ample). -/
def parseStrBody : Nat → List Char → List Char → Option (Str × List Char)
  | 0, _, _ => none
  | _ + 1, [], _ => none
  | f + 1, c₀ :: rest, acc =>
    if c₀ = '"' then some (acc.reverse, rest)
    else if c₀ = '\\' then
      match rest with
      | '"' :: r => parseStrBody f r ('"' :: acc)
      | '\\' :: r => parseStrBody f r ('\\' :: acc)
      | '/' :: r => parseStrBody f r ('/' :: acc)
      | 'b' :: r => parseStrBody f r ('\x08' :: acc)
      | 'f' :: r => parseStrBody f r ('\x0C' :: acc)
      | 'n' :: r => parseStrBody f r ('\n' :: acc)
      | 'r' :: r => parseStrBody f r ('\r' :: acc)
      | 't' :: r => parseStrBody f r ('\t' :: acc)
      | 'u' :: h1 :: h2 :: h3 :: h4 :: r =>
        match hexVal h1, hexVal h2, hexVal h3, hexVal h4 with
        | some a, some b, some c, some d =>
          let code := ((a * 16 + b) * 16 + c) * 16 + d
          if 0xD800 ≤ code ∧ code ≤ 0xDBFF then
            match r with
            | '\\' :: 'u' :: g1 :: g2 :: g3 :: g4 :: r' =>
              match hexVal g1, hexVal g2, hexVal g3, hexVal g4 with
              | some a', some b', some c', some d' =>
                let lo := ((a' * 16 + b') * 16 + c') * 16 + d'
                if 0xDC00 ≤ lo ∧ lo ≤ 0xDFFF then
                  parseStrBody f r'
                    (Char.ofNat (0x10000 + (code - 0xD800) * 0x400 + (lo - 0xDC00)) :: acc)
                else parseStrBody f r (Char.ofNat code :: acc)
              | _, _, _, _ => parseStrBody f r (Char.ofNat code :: acc)
            | _ => parseStrBody f r (Char.ofNat code :: acc)
          else parseStrBody f r (Char.ofNat code :: acc)
        | _, _, _, _ => none
      | _ => none
    else if c₀.toNat < 0x20 then none
    else parseStrBody f rest (c₀ :: acc)

def takeDigits (s : List Char) : List Char × List Char :=
  (s.takeWhile Char.isDigit, s.dropWhile Char.isDigit)

def digitsToNat (ds : List Char) : Nat :=
  ds.foldl (fun acc c => acc * 10 + (c.toNat - '0'.toNat)) 0

/-- A JSON number per the grammar `-?(0|[1-9][0-9]*)(.[0-9]+)?([eE][+-]?[0-9]+)?`,
evaluated exactly as a rational. -/
def parseNum (s : List Char) : Option (Json × List Char) :=
  let signed : Bool × List Char :=
    match s with
    | '-' :: r => (true, r)
    | _ => (false, s)
  let neg := signed.1
  let s₁ := signed.2
  let intRes : Option (Nat × List Char) :=
    match s₁ with
    | '0' :: r => some (0, r)
    | c :: r =>
        if c.isDigit then
          let p := takeDigits (c :: r)
          some (digitsToNat p.1, p.2)
        else none
    | [] => none
  match intRes with
  | none => none
  | some (ip, r₁) =>
    let fracRes : Option (Nat × Nat × List Char) :=
      match r₁ with
      | '.' :: r₂ =>
          let p := takeDigits r₂
          if p.1.isEmpty then none
          else some (digitsToNat p.1, p.1.length, p.2)
      | _ => some (0, 0, r₁)
    match fracRes with
    | none => none
    | some (fn, fl, r₃) =>
      let expRes : Option (Bool × Nat × List Char) :=
        match r₃ with
        | 'e' :: r₄ | 'E' :: r₄ =>
          match r₄ with
          | '+' :: r₅ =>
              let p := takeDigits r₅
              if p.1.isEmpty then none else some (false, digitsToNat p.1, p.2)
          | '-' :: r₅ =>
              let p := takeDigits r₅
              if p.1.isEmpty then none else some (true, digitsToNat p.1, p.2)
          | _ =>
              let p := takeDigits r₄
              if p.1.isEmpty then none else some (false, digitsToNat p.1, p.2)
        | _ => some (false, 0, r₃)
      match expRes with
      | none => none
      | some (eneg, e, r₆) =>
        -- value = ±(ip.fracdigits) * 10^(±e), built with integer arithmetic
        -- so that the rational kernel-reduces.
        let m : Nat := ip * 10 ^ fl + fn
        let mz : Int := if neg then -(m : Int) else (m : Int)
        let q : ℚ :=
          if eneg then mkRat mz (10 ^ fl * 10 ^ e)
          else mkRat (mz * (10 : Int) ^ e) (10 ^ fl)
        some (.num q, r₆)

def JArr.snoc : JArr → Json → JArr
  | .nil, x => .cons x .nil
  | .cons h t, x => .cons h (JArr.snoc t x)

mutual

/-- One JSON value (leading whitespace allowed), returning the remainder of
the input.  Fueled recursion; `jsonLoads` supplies ample fuel. -/
def parseVal : Nat → List Char → Option (Json × List Char)
  | 0, _ => none
  | f + 1, s =>
    match skipWs s with
    | '{' :: r =>
      match skipWs r with
      | '}' :: r' => some (.obj .nil, r')
      | r' => parseMembers f r' .nil
    | '[' :: r =>
      match skipWs r with
      | ']' :: r' => some (.arr .nil, r')
      | r' => parseElems f r' .nil
    | '"' :: r =>
      match parseStrBody (r.length + 1) r [] with
      | some (cs, r') => some (.str cs, r')
      | none => none
    | 't' :: 'r' :: 'u' :: 'e' :: r => some (.bool true, r)
    | 'f' :: 'a' :: 'l' :: 's' :: 'e' :: r => some (.bool false, r)
    | 'n' :: 'u' :: 'l' :: 'l' :: r => some (.null, r)
    | c :: r => if c = '-' ∨ c.isDigit then parseNum (c :: r) else none
    | [] => none

/-- Members of a JSON object after `\x7b` (positioned at a key). -/
def parseMembers : Nat → List Char → JObj → Option (Json × List Char)
  | 0, _, _ => none
  | f + 1, s, acc =>
    match s with
    | '"' :: r =>
      match parseStrBody (r.length + 1) r [] with
      | none => none
      | some (k, r₁) =>
        match skipWs r₁ with
        | ':' :: r₂ =>
          match parseVal f r₂ with
          | none => none
          | some (v, r₃) =>
            match skipWs r₃ with
            | ',' :: r₄ => parseMembers f (skipWs r₄) (acc.insert k v)
            | '}' :: r₄ => some (.obj (acc.insert k v), r₄)
            | _ => none
        | _ => none
    | _ => none

/-- Elements of a JSON array after `[` (positioned at a value). -/
def parseElems : Nat → List Char → JArr → Option (Json × List Char)
  | 0, _, _ => none
  | f + 1, s, acc =>
    match parseVal f s with
    | none => none
    | some (v, r) =>
      match skipWs r with
      | ',' :: r₂ => parseElems f (skipWs r₂) (acc.snoc v)
      | ']' :: r₂ => some (.arr (acc.snoc v), r₂)
      | _ => none

end

/-- Python `json.loads`: parse one value and require only whitespace after
it, else fail (Python raises `JSONDecodeError`; modelled as `none`). -/
def jsonLoads (s : Str) : Option Json :=
  match parseVal (2 * s.length + 2) s with
  | some (v, rest) => if (skipWs rest).isEmpty then some v else none
  | none => none

/-! ## `ToolAgent._parse_response` (tool_agent.py lines 180-207). -/

def pyFindAux : List Char → Char → Nat → Option Nat
  | [], _, _ => none
  | c :: t, ch, i => if c = ch then some i else pyFindAux t ch (i + 1)

/-- Python `s.find(c)`: index of the first occurrence, `-1` if absent. -/
def pyFind (s : Str) (c : Char) : Int :=
  match pyFindAux s c 0 with
  | some i => (i : Int)
  | none => -1

def pyRfindAux : List Char → Char → Nat → Option Nat
  | [], _, _ => none
  | c :: t, ch, i =>
    match pyRfindAux t ch (i + 1) with
    | some j => some j
    | none => if c = ch then some i else none

/-- Python `s.rfind(c)`: index of the last occurrence, `-1` if absent. -/
def pyRfind (s : Str) (c : Char) : Int :=
  match pyRfindAux s c 0 with
  | some i => (i : Int)
  | none => -1

/-- Python `s[a:b]` for `0 ≤ a ≤ b`. -/
def pySlice (s : Str) (a b : Int) : Str :=
  (s.drop a.toNat).take (b - a).toNat

/-- `json.loads("null")` returns Python `None`, which `_parse_response`'s
caller cannot distinguish from a parse failure (`if parsed is None`); the
model therefore folds a returned top-level JSON `null` into `none`. -/
def nullFold : Option Json → Option Json
  | some .null => none
  | r => r

/-- `ToolAgent._parse_response`: strict parse of the whole text; on failure,
slice from the first `\x7b` to the last `\x7d` and strictly parse the slice;
on any failure return `None`. -/
def parse_response (response : Str) : Option Json :=
  match jsonLoads response with
  | some v => nullFold (some v)
  | none =>
    let start := pyFind response '{'
    let e := pyRfind response '}' + 1
    if start ≠ -1 ∧ e > start then
      nullFold (jsonLoads (pySlice response start e))
    else none

/-! ## Serialization: Python `json.dumps`. -/

def natDigits (n : Nat) : Str :=
  Nat.toDigits 10 n

def intRender (i : Int) : Str :=
  if i < 0 then '-' :: natDigits i.natAbs else natDigits i.natAbs

/-- Rendering of a number.  Integral rationals render as Python ints; for
non-integral values the exact fraction `p/q` is emitted (the model does not
reproduce Python float `repr`; no claim depends on it). -/
def qRender (q : ℚ) : Str :=
  if q.den = 1 then intRender q.num
  else intRender q.num ++ '/' :: natDigits q.den

def hex4 (n : Nat) : Str :=
  let ds := Nat.toDigits 16 (n % 65536)
  List.replicate (4 - ds.length) '0' ++ ds

/-- JSON string escaping as `json.dumps` does with its default
`ensure_ascii=True`: short escapes for the common control characters,
`\u00XX` for the other controls, `\uXXXX` for non-ASCII (surrogate pairs
above `0xFFFF`). -/
def escChar (c : Char) : Str :=
  if c = '"' then ['\\', '"']
  else if c = '\\' then ['\\', '\\']
  else if c = '\n' then ['\\', 'n']
  else if c = '\t' then ['\\', 't']
  else if c = '\r' then ['\\', 'r']
  else if c = '\x08' then ['\\', 'b']
  else if c = '\x0C' then ['\\', 'f']
  else if c.toNat < 0x20 then '\\' :: 'u' :: hex4 c.toNat
  else if c.toNat ≤ 0x7E then [c]
  else if c.toNat ≤ 0xFFFF then '\\' :: 'u' :: hex4 c.toNat
  else
    ('\\' :: 'u' :: hex4 (0xD800 + (c.toNat - 0x10000) / 0x400)) ++
      ('\\' :: 'u' :: hex4 (0xDC00 + (c.toNat - 0x10000) % 0x400))

def quoteJson (s : Str) : Str :=
  '"' :: (s.foldr (fun c acc => escChar c ++ acc) ['"'])

/-- Lexicographic order on strings by code point, as Python `<` on `str`
(used by `sort_keys=True`). -/
def strLt : Str → Str → Bool
  | [], [] => false
  | [], _ :: _ => true
  | _ :: _, [] => false
  | a :: as, b :: bs => if a < b then true else if b < a then false else strLt as bs

def JObj.insertSorted (k : Str) (v : Json) : JObj → JObj
  | .nil => .cons k v .nil
  | .cons k' v' t =>
      if strLt k k' then .cons k v (.cons k' v' t)
      else .cons k' v' (JObj.insertSorted k v t)

/-- Sort an object's entries by key (insertion sort). -/
def JObj.sortKeys : JObj → JObj
  | .nil => .nil
  | .cons k v t => JObj.insertSorted k v (JObj.sortKeys t)

mutual

/-- Recursively sort every object's entries by key; serializing the result
is what `json.dumps(..., sort_keys=True)` emits. -/
def Json.sortDeep : Json → Json
  | .null => .null
  | .bool b => .bool b
  | .num q => .num q
  | .str s => .str s
  | .arr xs => .arr (JArr.sortDeep xs)
  | .obj kvs => .obj (JObj.sortKeys (JObj.sortDeep kvs))

def JArr.sortDeep : JArr → JArr
  | .nil => .nil
  | .cons x t => .cons (Json.sortDeep x) (JArr.sortDeep t)

def JObj.sortDeep : JObj → JObj
  | .nil => .nil
  | .cons k v t => .cons k (Json.sortDeep v) (JObj.sortDeep t)

end

def indentPad (indent : Option Nat) (level : Nat) : Str :=
  match indent with
  | none => []
  | some n => '\n' :: List.replicate (n * level) ' '

def itemSep (indent : Option Nat) (level : Nat) : Str :=
  match indent with
  | none => [',', ' ']
  | some n => ',' :: '\n' :: List.replicate (n * level) ' '

mutual

/-- Serialize a value as `json.dumps` (with optional `indent`); key order is
emitted as given, so callers wanting `sort_keys=True` pass a `sortDeep`ed
value. -/
def Json.render (indent : Option Nat) (level : Nat) : Json → Str
  | .null => "null".data
  | .bool true => "true".data
  | .bool false => "false".data
  | .num q => qRender q
  | .str s => quoteJson s
  | .arr .nil => ['[', ']']
  | .arr (.cons x t) =>
      '[' :: indentPad indent (level + 1) ++
        Json.render indent (level + 1) x ++ JArr.renderRest indent (level + 1) t ++
        indentPad indent level ++ [']']
  | .obj .nil => ['\x7b', '\x7d']
  | .obj (.cons k v t) =>
      '\x7b' :: indentPad indent (level + 1) ++
        quoteJson k ++ ':' :: ' ' :: Json.render indent (level + 1) v ++
        JObj.renderRest indent (level + 1) t ++
        indentPad indent level ++ ['\x7d']

def JArr.renderRest (indent : Option Nat) (level : Nat) : JArr → Str
  | .nil => []
  | .cons x t =>
      itemSep indent level ++ Json.render indent level x ++
        JArr.renderRest indent level t

def JObj.renderRest (indent : Option Nat) (level : Nat) : JObj → Str
  | .nil => []
  | .cons k v t =>
      itemSep indent level ++ quoteJson k ++ ':' :: ' ' :: Json.render indent level v ++
        JObj.renderRest indent level t

end

/-- Python `json.dumps(j, sort_keys := sk, indent := ind)`. -/
def dumps (sk : Bool) (ind : Option Nat) (j : Json) : Str :=
  Json.render ind 0 (if sk then j.sortDeep else j)

/-! ## Python `str()` of a value (used in f-strings). -/

mutual

/-- Python `repr` of a JSON-shaped value (containers use `repr` of their
elements; strings are wrapped in single quotes — Python's quote-choice
subtleties are not reproduced, and no claim depends on them). -/
def Json.pyRepr : Json → Str
  | .null => "None".data
  | .bool true => "True".data
  | .bool false => "False".data
  | .num q => qRender q
  | .str s => '\'' :: s ++ ['\'']
  | .arr .nil => ['[', ']']
  | .arr (.cons x t) => '[' :: Json.pyRepr x ++ JArr.reprRest t ++ [']']
  | .obj .nil => ['\x7b', '\x7d']
  | .obj (.cons k v t) =>
      '\x7b' :: ('\'' :: k ++ ['\'']) ++ ':' :: ' ' :: Json.pyRepr v ++
        JObj.reprRest t ++ ['\x7d']

def JArr.reprRest : JArr → Str
  | .nil => []
  | .cons x t => ',' :: ' ' :: Json.pyRepr x ++ JArr.reprRest t

def JObj.reprRest : JObj → Str
  | .nil => []
  | .cons k v t =>
      ',' :: ' ' :: ('\'' :: k ++ ['\'']) ++ ':' :: ' ' :: Json.pyRepr v ++
        JObj.reprRest t

end

/-- Python `str()` of a value: a string is itself, anything else its
`repr`. -/
def Json.pyStr : Json → Str
  | .str s => s
  | j => j.pyRepr

/-! ## Python `==` on JSON-shaped values. -/

mutual

/-- Python `==`: numbers compare by value and `bool` is an `int` subclass
(`True == 1`), lists pointwise, dicts by key set with `==` on values. -/
def Json.pyEq : Json → Json → Bool
  | .null, .null => true
  | .bool b, .bool b' => b = b'
  | .bool b, .num q => decide (q = if b then 1 else 0)
  | .num q, .bool b => decide (q = if b then 1 else 0)
  | .num q, .num q' => q = q'
  | .str s, .str s' => s = s'
  | .arr xs, .arr ys => JArr.pyEq xs ys
  | .obj kvs, .obj kvs' =>
      JObj.length kvs = JObj.length kvs' && JObj.pyEqSub kvs kvs'
  | _, _ => false

def JArr.pyEq : JArr → JArr → Bool
  | .nil, .nil => true
  | .cons x t, .cons y u => Json.pyEq x y && JArr.pyEq t u
  | _, _ => false

/-- Every entry of the first dict is present in the second with a
Python-equal value. -/
def JObj.pyEqSub : JObj → JObj → Bool
  | .nil, _ => true
  | .cons k v t, d =>
      (match JObj.get d k with
       | some v' => Json.pyEq v v'
       | none => false) && JObj.pyEqSub t d

end

/-! ## tools.py -/

/-- Python type name of a value, for exception messages.  Rationals render
as `int` when integral (the model conflates Python ints and floats). -/
def Json.pyTypeName : Json → Str
  | .null => "NoneType".data
  | .bool _ => "bool".data
  | .num q => if q.den = 1 then "int".data else "float".data
  | .str _ => "str".data
  | .arr _ => "list".data
  | .obj _ => "dict".data

/-- `str(e)` of Python's `AttributeError` on `j.attr`. -/
def noAttrMsg (j : Json) (attr : Str) : Str :=
  '\'' :: j.pyTypeName ++ '\'' :: " object has no attribute '".data ++ attr ++ ['\'']

/-- Numeric view: Python `bool` is an `int` subclass, so it participates in
arithmetic. -/
def pyToNum : Json → Option ℚ
  | .num q => some q
  | .bool b => some (if b then 1 else 0)
  | _ => none

/-- Integer view (for sequence repetition and list slicing). -/
def pyToInt : Json → Option Int
  | .num q => if q.den = 1 then some q.num else none
  | .bool b => some (if b then 1 else 0)
  | _ => none

def JArr.append : JArr → JArr → JArr
  | .nil, ys => ys
  | .cons x t, ys => .cons x (JArr.append t ys)

def binOpTypeErr (op : Str) (a b : Json) : Str :=
  "unsupported operand type(s) for ".data ++ op ++ ": '".data ++ a.pyTypeName ++
    "' and '".data ++ b.pyTypeName ++ ['\'']

/-- Python `a + b` on JSON-shaped values: numeric addition (bools count as
ints), string and list concatenation, otherwise `TypeError`. -/
def pyAdd (a b : Json) : Except Str Json :=
  match pyToNum a, pyToNum b with
  | some x, some y => .ok (.num (x + y))
  | _, _ =>
    match a, b with
    | .str s, .str t => .ok (.str (s ++ t))
    | .arr xs, .arr ys => .ok (.arr (xs.append ys))
    | _, _ => .error (binOpTypeErr "+".data a b)

/-- Python `a - b`. -/
def pySub (a b : Json) : Except Str Json :=
  match pyToNum a, pyToNum b with
  | some x, some y => .ok (.num (x - y))
  | _, _ => .error (binOpTypeErr "-".data a b)

def strRepeat (s : Str) (i : Int) : Str :=
  (List.replicate i.toNat s).flatten

/-- Python `a * b`: numeric product, or sequence repetition by an int. -/
def pyMul (a b : Json) : Except Str Json :=
  match pyToNum a, pyToNum b with
  | some x, some y => .ok (.num (x * y))
  | _, _ =>
    match a, b with
    | .str s, _ =>
      match pyToInt b with
      | some i => .ok (.str (strRepeat s i))
      | none => .error (binOpTypeErr "*".data a b)
    | _, .str s =>
      match pyToInt a with
      | some i => .ok (.str (strRepeat s i))
      | none => .error (binOpTypeErr "*".data a b)
    | _, _ => .error (binOpTypeErr "*".data a b)

/-- Python `a / b` (true division; exact in the rational model). -/
def pyDiv (a b : Json) : Except Str Json :=
  match pyToNum a, pyToNum b with
  | some x, some y =>
      if y = 0 then .error "division by zero".data else .ok (.num (x / y))
  | _, _ => .error (binOpTypeErr "/".data a b)

/-- Python `b == 0` (true for `0`, `0.0` and `False`). -/
def pyEqZero (b : Json) : Bool :=
  match pyToNum b with
  | some q => q = 0
  | none => false

def errResult (msg : Str) : Json :=
  .obj (.ofList [("success".data, .bool false), ("error".data, .str msg)])

def calcSuccess (operation a b r : Json) : Json :=
  .obj (.ofList
    [("success".data, .bool true),
     ("result".data, r),
     ("operation".data, operation),
     ("inputs".data, .obj (.ofList [("a".data, a), ("b".data, b)]))])

/-- `tools.calculator` (tools.py lines 10-53): dispatch on the operation
name; explicit divide-by-zero check; the body's `try/except` turns any
arithmetic `TypeError` into a `success=False` record carrying `str(e)`. -/
def calculator (operation a b : Json) : Json :=
  if operation = .str "add".data then
    match pyAdd a b with
    | .ok r => calcSuccess operation a b r
    | .error e => errResult e
  else if operation = .str "subtract".data then
    match pySub a b with
    | .ok r => calcSuccess operation a b r
    | .error e => errResult e
  else if operation = .str "multiply".data then
    match pyMul a b with
    | .ok r => calcSuccess operation a b r
    | .error e => errResult e
  else if operation = .str "divide".data then
    if pyEqZero b then errResult "Cannot divide by zero".data
    else
      match pyDiv a b with
      | .ok r => calcSuccess operation a b r
      | .error e => errResult e
  else errResult ("Unknown operation: ".data ++ operation.pyStr)

/-! ### Python string helpers used by the tools. -/

def strLower (s : Str) : Str :=
  s.map Char.toLower

def strReplaceF : Nat → Str → Str → Str → Str
  | 0, s, _, _ => s
  | f + 1, s, pat, rep =>
    match s with
    | [] => []
    | c :: t =>
      if pat.isPrefixOf s then rep ++ strReplaceF f (s.drop pat.length) pat rep
      else c :: strReplaceF f t pat rep

/-- Python `s.replace(pat, rep)` for a nonempty pattern (the tools only
replace nonempty literals; the empty-pattern case returns `s` unchanged). -/
def strReplace (s pat rep : Str) : Str :=
  if pat.isEmpty then s else strReplaceF (s.length + 1) s pat rep

/-- Python `s.strip(c)` for a single-character set. -/
def stripChar (s : Str) (c : Char) : Str :=
  ((s.dropWhile (· = c)).reverse.dropWhile (· = c)).reverse

def isPyWs (c : Char) : Bool :=
  c = ' ' ∨ c = '\t' ∨ c = '\n' ∨ c = '\r' ∨ c = '\x0B' ∨ c = '\x0C'

/-- Python `s.strip()` (whitespace). -/
def stripWs (s : Str) : Str :=
  ((s.dropWhile isPyWs).reverse.dropWhile isPyWs).reverse

def strFindSubAux (needle : Str) : Str → Nat → Option Nat
  | [], i => if needle.isEmpty then some i else none
  | c :: t, i =>
      if needle.isPrefixOf (c :: t) then some i
      else strFindSubAux needle t (i + 1)

/-- Index of the first occurrence of `needle` in `hay` (Python `find`,
with `none` for Python's `-1`). -/
def strFindSub (hay needle : Str) : Option Nat :=
  strFindSubAux needle hay 0

/-- Python `needle in hay`. -/
def strContains (hay needle : Str) : Bool :=
  (strFindSub hay needle).isSome

def strCountF : Nat → Str → Str → Nat
  | 0, _, _ => 0
  | f + 1, s, needle =>
    match s with
    | [] => 0
    | _ :: t =>
      if needle.isPrefixOf s then 1 + strCountF f (s.drop needle.length) needle
      else strCountF f t needle

/-- Python `hay.count(needle)`: non-overlapping occurrences. -/
def strCount (hay needle : Str) : Nat :=
  if needle.isEmpty then hay.length + 1 else strCountF (hay.length + 1) hay needle

/-- Python `l[a:b]` for natural bounds. -/
def listSlice (s : Str) (a b : Nat) : Str :=
  (s.drop a).take (b - a)

/-- Python `l[:i]`, allowing a negative bound. -/
def pyTakeSlice {α : Type} (l : List α) (i : Int) : List α :=
  if 0 ≤ i then l.take i.toNat else l.take (l.length - i.natAbs)

/-! ### tools.web_fetch (tools.py lines 125-191). -/

def fetchSuccess (url extract r : Json) : Json :=
  .obj (.ofList
    [("success".data, .bool true),
     ("url".data, url),
     ("extract_type".data, extract),
     ("content".data, r)])

/-- The `mock_data` table of `web_fetch`: url → (title, summary, content). -/
def mockLookup (u : Str) : Option (Str × Str × Str) :=
  if u = "example.com".data then
    some ("Example Domain".data,
      "This domain is for use in illustrative examples in documents.".data,
      ("Example Domain. This domain is for use in illustrative examples in " ++
        "documents. You may use this domain in literature without prior " ++
        "coordination or asking for permission.").data)
  else if u = "python.org".data then
    some ("Welcome to Python.org".data,
      "The official home of the Python Programming Language.".data,
      ("Python is a programming language that lets you work quickly and " ++
        "integrate systems more effectively. Python is powerful and fast, " ++
        "plays well with others, runs everywhere, is friendly and easy to " ++
        "learn, and is Open.").data)
  else if u = "github.com".data then
    some ("GitHub: Let's build from here".data,
      "GitHub is where over 100 million developers shape the future of software.".data,
      ("GitHub is where over 100 million developers shape the future of " ++
        "software, together. Contribute to the open source community, manage " ++
        "your Git repositories, review code like a pro, track bugs and " ++
        "features, power your CI/CD and DevOps workflows, and secure code " ++
        "before you commit it.").data)
  else none

/-- `tools.web_fetch`: normalize the url, look it up in the mock table and
extract the requested field.  A non-string url makes `url.replace` raise
`AttributeError`, which the body's `try/except` converts to a failure
record. -/
def web_fetch (url extract : Json) : Json :=
  match url with
  | .str u =>
    let clean :=
      stripChar
        (strReplace (strReplace (strReplace u "http://".data []) "https://".data [])
          "www.".data []) '/'
    match mockLookup clean with
    | some (title, summary, content) =>
      if extract = .str "title".data then fetchSuccess url extract (.str title)
      else if extract = .str "summary".data then fetchSuccess url extract (.str summary)
      else if extract = .str "content".data then fetchSuccess url extract (.str content)
      else
        errResult ("Unknown extract type: ".data ++ extract.pyStr ++
          ". Use 'title', 'summary', or 'content'.".data)
    | none =>
      errResult "URL not found in mock data. Available: example.com, python.org, github.com".data
  | _ => errResult (noAttrMsg url "replace".data)

/-! ### tools.search_docs (tools.py lines 56-122).

The filesystem is passed explicitly: `none` models an absent `docs`
directory (the code then creates it and writes the three sample documents),
`some l` models a directory listing of (filename, contents) pairs. -/

def sampleDocs : List (Str × Str) :=
  [("python_intro.txt".data,
    ("Python Programming Language\n\nPython is a high-level, interpreted " ++
     "programming language known for its simplicity and readability. \nIt " ++
     "was created by Guido van Rossum and first released in 1991.\n\nPython " ++
     "is widely used in web development, data science, artificial " ++
     "intelligence, automation, and more.\nIts extensive standard library " ++
     "and vast ecosystem of third-party packages make it suitable for " ++
     "almost any programming task.\n\nKey features of Python include " ++
     "dynamic typing, automatic memory management, and support for " ++
     "multiple programming paradigms.").data),
   ("machine_learning.txt".data,
    ("Machine Learning Basics\n\nMachine learning is a subset of artificial " ++
     "intelligence that enables systems to learn and improve from " ++
     "experience without being explicitly programmed.\n\nThere are three " ++
     "main types of machine learning:\n1. Supervised Learning - Learning " ++
     "from labeled data\n2. Unsupervised Learning - Finding patterns in " ++
     "unlabeled data\n3. Reinforcement Learning - Learning through trial " ++
     "and error\n\nPopular machine learning frameworks include TensorFlow, " ++
     "PyTorch, and scikit-learn.").data),
   ("web_development.txt".data,
    ("Web Development Overview\n\nWeb development involves building " ++
     "websites and web applications. It typically consists of two main " ++
     "areas:\n\nFrontend Development: The client-side of web applications, " ++
     "dealing with what users see and interact with. Technologies include " ++
     "HTML, CSS, and JavaScript.\n\nBackend Development: The server-side " ++
     "of web applications, handling data storage, business logic, and " ++
     "server configuration. Common languages include Python, JavaScript " ++
     "(Node.js), Java, and Ruby.\n\nModern web development often uses " ++
     "frameworks like React, Vue.js, Django, and Express.js to speed up " ++
     "development.").data)]

/-- One search hit: the `relevance` count paired with the result record. -/
def searchHit (fn content ql : Str) : Nat × Json :=
  let idx := (strFindSub (strLower content) ql).getD 0
  let a := idx - 50
  let b := min content.length (idx + 150)
  let snippet := stripWs (listSlice content a b)
  let rel := strCount (strLower content) ql
  (rel,
    .obj (.ofList
      [("filename".data, .str fn),
       ("snippet".data, .str snippet),
       ("relevance".data, .num rel)]))

def insertDescRel (x : Nat × Json) : List (Nat × Json) → List (Nat × Json)
  | [] => [x]
  | y :: t => if x.1 > y.1 then x :: y :: t else y :: insertDescRel x t

/-- Python's stable `sort(key=relevance, reverse=True)`. -/
def sortDescRel (l : List (Nat × Json)) : List (Nat × Json) :=
  l.foldl (fun acc x => insertDescRel x acc) []

/-- `tools.search_docs`: case-insensitive keyword search over the docs
directory, relevance-sorted, truncated to `max_results`.  A non-string
query (`query.lower()`) or a non-integer `max_results` (list slicing)
raises and is converted by the body's `try/except` to a failure record. -/
def search_docs (fs : Option (List (Str × Str))) (query max_results : Json) : Json :=
  let docs := match fs with
    | none => sampleDocs
    | some l => l
  match query with
  | .str qs =>
    let ql := strLower qs
    let hits := docs.filterMap (fun p =>
      if (".txt".data.isSuffixOf p.1 ∨ ".md".data.isSuffixOf p.1) ∧
          strContains (strLower p.2) ql then
        some (searchHit p.1 p.2 ql)
      else none)
    let sorted := sortDescRel hits
    match pyToInt max_results with
    | none =>
        errResult "slice indices must be integers or None or have an __index__ method".data
    | some i =>
      let top := (pyTakeSlice sorted i).map (fun p => p.2)
      if top.isEmpty then
        .obj (.ofList
          [("success".data, .bool true),
           ("results".data, .arr .nil),
           ("message".data,
            .str ("No documents found matching '".data ++ query.pyStr ++ ['\'']))])
      else
        .obj (.ofList
          [("success".data, .bool true),
           ("results".data, .arr (.ofList top)),
           ("query".data, query),
           ("count".data, .num top.length)])
  | _ => errResult (noAttrMsg query "lower".data)

/-! ### The tool registry (tools.py lines 236-353). -/

def calculatorSchema : Json :=
  .obj (.ofList
    [("type".data, .str "object".data),
     ("properties".data, .obj (.ofList
       [("operation".data, .obj (.ofList
          [("type".data, .str "string".data),
           ("enum".data, .arr (.ofList
             [.str "add".data, .str "subtract".data, .str "multiply".data,
              .str "divide".data])),
           ("description".data, .str "The arithmetic operation to perform".data)])),
        ("a".data, .obj (.ofList
          [("type".data, .str "number".data),
           ("description".data, .str "First number".data)])),
        ("b".data, .obj (.ofList
          [("type".data, .str "number".data),
           ("description".data, .str "Second number".data)]))])),
     ("required".data, .arr (.ofList
       [.str "operation".data, .str "a".data, .str "b".data]))])

def searchDocsSchema : Json :=
  .obj (.ofList
    [("type".data, .str "object".data),
     ("properties".data, .obj (.ofList
       [("query".data, .obj (.ofList
          [("type".data, .str "string".data),
           ("description".data, .str "Search query string".data)])),
        ("max_results".data, .obj (.ofList
          [("type".data, .str "integer".data),
           ("description".data,
            .str "Maximum number of results to return (default: 3)".data),
           ("default".data, .num 3)]))])),
     ("required".data, .arr (.ofList [.str "query".data]))])

def webFetchSchema : Json :=
  .obj (.ofList
    [("type".data, .str "object".data),
     ("properties".data, .obj (.ofList
       [("url".data, .obj (.ofList
          [("type".data, .str "string".data),
           ("description".data,
            .str "URL to fetch (example.com, python.org, github.com)".data)])),
        ("extract".data, .obj (.ofList
          [("type".data, .str "string".data),
           ("enum".data, .arr (.ofList
             [.str "title".data, .str "summary".data, .str "content".data])),
           ("description".data,
            .str "What to extract from the page (default: content)".data),
           ("default".data, .str "content".data)]))])),
     ("required".data, .arr (.ofList [.str "url".data]))])

/-- `tools.get_tool_schemas()`: the registry's descriptors, in registration
order, without the callables. -/
def get_tool_schemas : Json :=
  .arr (.ofList
    [.obj (.ofList
      [("name".data, .str "calculator".data),
       ("description".data,
        .str "Performs basic arithmetic operations (add, subtract, multiply, divide)".data),
       ("parameters".data, calculatorSchema)]),
     .obj (.ofList
      [("name".data, .str "search_docs".data),
       ("description".data, .str "Search through local documents for information".data),
       ("parameters".data, searchDocsSchema)]),
     .obj (.ofList
      [("name".data, .str "web_fetch".data),
       ("description".data, .str "Fetch content from a URL (mocked for learning)".data),
       ("parameters".data, webFetchSchema)])])

/-- A Python exception escaping a registered tool's invocation: a
`TypeError` (argument-shape mismatch at the `**`-call) or any other
exception. -/
inductive PyErr where
  | typeError (msg : Str) : PyErr
  | other (msg : Str) : PyErr
deriving DecidableEq

/-- The `TypeError` raised by CPython's `**`-keyword dispatch when the
argument dict has an unexpected key or misses a required parameter. -/
def checkKwargs (fname : Str) (params required : List Str) (args : JObj) : Option Str :=
  match (args.toList.map Prod.fst).find? (fun k => !params.contains k) with
  | some k =>
      some (fname ++ "() got an unexpected keyword argument '".data ++ k ++ ['\''])
  | none =>
    match required.find? (fun k => (args.get k).isNone) with
    | some k =>
        some (fname ++ "() missing 1 required positional argument: '".data ++ k ++ ['\''])
    | none => none

/-- `tool["function"](**arguments)` for each registered tool: keyword
dispatch with the source signatures (`calculator(operation, a, b)`,
`search_docs(query, max_results=3)`, `web_fetch(url, extract="content")`).
The registered bodies catch their own internal exceptions, so the only
fault this call can raise is the dispatch `TypeError`. -/
def toolCall (fs : Option (List (Str × Str))) (name : Str) (args : JObj) :
    Except PyErr Json :=
  if name = "calculator".data then
    match checkKwargs name ["operation".data, "a".data, "b".data]
        ["operation".data, "a".data, "b".data] args with
    | some m => .error (.typeError m)
    | none =>
        .ok (calculator (args.getD "operation".data .null) (args.getD "a".data .null)
          (args.getD "b".data .null))
  else if name = "search_docs".data then
    match checkKwargs name ["query".data, "max_results".data] ["query".data] args with
    | some m => .error (.typeError m)
    | none =>
        .ok (search_docs fs (args.getD "query".data .null)
          (args.getD "max_results".data (.num 3)))
  else if name = "web_fetch".data then
    match checkKwargs name ["url".data, "extract".data] ["url".data] args with
    | some m => .error (.typeError m)
    | none =>
        .ok (web_fetch (args.getD "url".data .null)
          (args.getD "extract".data (.str "content".data)))
  else .error (.other "tool not registered".data)

def notFoundResult (tool_name : Str) : Json :=
  errResult ("Tool '".data ++ tool_name ++
    "' not found. Available tools: calculator, search_docs, web_fetch".data)

def invalidArgsResult (tool_name : Str) (m : Str) : Json :=
  errResult ("Invalid arguments for tool '".data ++ tool_name ++ "': ".data ++ m)

def toolFailedResult (m : Str) : Json :=
  errResult ("Tool execution failed: ".data ++ m)

/-- CPython's `TypeError` message when `**arguments` is applied to a
non-mapping. -/
def starStarMsg (tool_name : Str) (args : Json) : Str :=
  tool_name ++ "() argument after ** must be a mapping, not ".data ++ args.pyTypeName

/-- `tools.execute_tool` (tools.py lines 320-353): registry lookup, then the
`**`-dispatch call inside `try`, with `TypeError` converted to an
invalid-arguments failure record and any other exception to a generic
failure record. -/
def execute_tool (fs : Option (List (Str × Str))) (tool_name : Str)
    (arguments : Json) : Json :=
  if tool_name = "calculator".data ∨ tool_name = "search_docs".data ∨
      tool_name = "web_fetch".data then
    match arguments with
    | .obj kvs =>
      match toolCall fs tool_name kvs with
      | .ok r => r
      | .error (.typeError m) => invalidArgsResult tool_name m
      | .error (.other m) => toolFailedResult m
    | _ => invalidArgsResult tool_name (starStarMsg tool_name arguments)
  else notFoundResult tool_name

/-! ## tool_agent.py: prompt construction. -/

/-- `ToolAgent._build_prompt` (tool_agent.py lines 144-178): the initial
prompt embedding the tool catalog (`json.dumps(schemas, indent=2)`) and the
question. -/
def build_prompt (question : Str) : Str :=
  ("You are a helpful assistant with access to tools. Your job is to answer " ++
   "the user's question by using the appropriate tools.\n\nAvailable tools:\n").data ++
  dumps false (some 2) get_tool_schemas ++
  ("\n\nCRITICAL RULES:\n1. To use a tool, respond with ONLY this JSON:\n" ++
   "   \x7b\"tool\": \"tool_name\", \"arguments\": \x7b\"param\": \"value\"\x7d\x7d\n\n" ++
   "2. After you receive a tool result, you MUST respond with ONLY this JSON:\n" ++
   "   \x7b\"done\": true, \"answer\": \"your final answer using the tool result\"\x7d\n\n" ++
   "3. If a tool is not appropriate, respond with ONLY this JSON:\n" ++
   "   \x7b\"refuse\": true, \"reason\": \"explanation\"\x7d\n\n" ++
   "4. NEVER make up tool results - always wait for actual tool execution\n" ++
   "5. ALWAYS finish after getting a tool result - do not call the same tool twice\n\n" ++
   "User question: ").data ++ question ++ "\n\nRespond with JSON only:".data

/-! ## tool_agent.py: the agent loop (`ToolAgent.run`, lines 29-142).

The generation backend (`llm.call_llm`) is modelled as an oracle giving, for
each successive call, either the generated text or a raised exception's
message — exactly the contract the spec assigns to the Generation Client.
The tool layer is passed as an `env` function (the spec treats the tool
implementations as external collaborators of the loop); instantiating `env`
with `execute_tool` recovers the repository's composition. -/

/-- Outcome of one `call_llm` invocation. -/
inductive GenEvent where
  | ok (text : Str) : GenEvent
  | raise (msg : Str) : GenEvent

/-- The loop's per-run mutable state: the cumulative prompt, the number of
generation calls made so far, `conversation_history`, and
`last_tool_call`. -/
structure LoopState where
  prompt : Str
  callIdx : Nat
  history : List (Json × Json × Json)
  lastToolCall : Option (Json × Str)

/-- The interpreted intent of one parsed response record, following the
source's check order (lines 76-97). -/
inductive Interp where
  | done (answer : Json) : Interp
  | refuse (reason : Json) : Interp
  | toolCall (name args : Json) : Interp
  | noTool : Interp
deriving DecidableEq

/-- Classification of a parsed record: a truthy `done` is checked first,
then a truthy `refuse`, then a truthy `tool` key; otherwise there is no
actionable directive.  Defaults: answer `"Task completed."`, reason
`"Tool not appropriate"`, arguments the empty dict. -/
def interpret (kvs : JObj) : Interp :=
  if (kvs.getD "done".data .null).truthy then
    .done (kvs.getD "answer".data (.str "Task completed.".data))
  else if (kvs.getD "refuse".data .null).truthy then
    .refuse (kvs.getD "reason".data (.str "Tool not appropriate".data))
  else
    let tool_name := kvs.getD "tool".data .null
    if tool_name.truthy then .toolCall tool_name (kvs.getD "arguments".data (.obj .nil))
    else .noTool

/-- `current_call = (tool_name, json.dumps(arguments, sort_keys=True))`
(line 100). -/
def fingerprint (tool_name args : Json) : Json × Str :=
  (tool_name, dumps true none args)

/-- Python `==` on fingerprint tuples. -/
def fpEq (a b : Json × Str) : Bool :=
  Json.pyEq a.1 b.1 && a.2 = b.2

/-- `current_call == last_tool_call` (line 101); comparing with `None` is
`False`. -/
def lastEq (last : Option (Json × Str)) (cur : Json × Str) : Bool :=
  match last with
  | none => false
  | some l => fpEq cur l

def invalidJsonMsg : Str :=
  ("\n\nError: Your response was not valid JSON. Please respond with valid " ++
   "JSON matching the format specified.").data

def noToolMsg : Str :=
  "\n\nError: You must specify a tool name or set 'done': true.".data

def forcedDoneMsg : Str :=
  ("\n\nYou just called the same tool with the same arguments. You MUST now " ++
   "respond with: \x7b\"done\": true, \"answer\": \"your final answer using " ++
   "the results you have\"\x7d").data

def transcriptHead (tool_name args result : Json) : Str :=
  "\n\nTool: ".data ++ tool_name.pyStr ++ "\nArguments: ".data ++
    dumps false none args ++ "\nResult: ".data ++ dumps false none result

/-- Prompt suffix after a successful tool result (line 129). -/
def successSuffix (tool_name args result : Json) : Str :=
  transcriptHead tool_name args result ++
    ("\n\nNow decide: Is the user's question fully answered? If yes, respond " ++
     "with \x7b\"done\": true, \"answer\": \"...\"\x7d. If you need another " ++
     "tool to complete the task, call it now.").data

/-- Prompt suffix after a failed tool result (line 131). -/
def failureSuffix (tool_name args result : Json) : Str :=
  transcriptHead tool_name args result ++
    ("\n\nThe tool returned an error. Respond with: \x7b\"done\": true, " ++
     "\"answer\": \"explain the error to the user\"\x7d").data

def refuseAnswer (reason : Json) : Str :=
  "I cannot complete this task: ".data ++ reason.pyStr

/-- The budget-exhausted answer (line 142). -/
def budgetMsg (max_iterations tool_calls : Nat) : Str :=
  "Could not complete task within ".data ++ natDigits max_iterations ++
    " iterations. Tool calls made: ".data ++ natDigits tool_calls

/-- One `while` pass of `ToolAgent.run`, recursing on the remaining
iteration budget.  `env` is the tool boundary
(`execute_tool(tool_name, arguments)`), `llm` the generation oracle.  The
`except Exception` wrapper surfaces any raised fault as an
`"Error: ..."` answer; a parsed non-dict record makes `parsed.get` raise
`AttributeError`, landing in that same wrapper. -/
def runAux (env : Json → Json → Json) (llm : Nat → GenEvent) (maxIter : Nat) :
    Nat → LoopState → Json
  | 0, st => .str (budgetMsg maxIter st.history.length)
  | n + 1, st =>
    match llm st.callIdx with
    | .raise e => .str ("Error: ".data ++ e)
    | .ok resp =>
      match parse_response resp with
      | none =>
          runAux env llm maxIter n
            { st with prompt := st.prompt ++ invalidJsonMsg, callIdx := st.callIdx + 1 }
      | some (.obj kvs) =>
        match interpret kvs with
        | .done answer => answer
        | .refuse reason => .str (refuseAnswer reason)
        | .noTool =>
            runAux env llm maxIter n
              { st with prompt := st.prompt ++ noToolMsg, callIdx := st.callIdx + 1 }
        | .toolCall tool_name args =>
          let cur := fingerprint tool_name args
          if lastEq st.lastToolCall cur then
            runAux env llm maxIter n
              { st with prompt := st.prompt ++ forcedDoneMsg,
                        callIdx := st.callIdx + 1, lastToolCall := none }
          else
            match env tool_name args with
            | .obj rkvs =>
              let result := Json.obj rkvs
              let suffix :=
                if (JObj.getD rkvs "success".data .null).truthy then
                  successSuffix tool_name args result
                else failureSuffix tool_name args result
              runAux env llm maxIter n
                { prompt := st.prompt ++ suffix, callIdx := st.callIdx + 1,
                  history := st.history ++ [(tool_name, args, result)],
                  lastToolCall := some cur }
            | r => .str ("Error: ".data ++ noAttrMsg r "get".data)
      | some v => .str ("Error: ".data ++ noAttrMsg v "get".data)

/-- `ToolAgent.run`: build the initial prompt and loop for at most
`max_iterations` rounds. -/
def ToolAgent.run (env : Json → Json → Json) (llm : Nat → GenEvent)
    (max_iterations : Nat) (question : Str) : Json :=
  runAux env llm max_iterations max_iterations
    { prompt := build_prompt question, callIdx := 0, history := [], lastToolCall := none }

/-- Lookup of a key in a result record (`none` when the value is not a
dict). -/
def resGet (j : Json) (k : Str) : Option Json :=
  match j with
  | .obj kvs => kvs.get k
  | _ => none

/-- `execute_tool` instantiated as the loop's tool boundary: the loop passes
the parsed `tool` value as the name.  (A non-string name is absent from the
registry; for the unhashable container case CPython would raise at the
membership test, a corner no run with a string tool name reaches.) -/
def envExec (fs : Option (List (Str × Str))) (tn args : Json) : Json :=
  match tn with
  | .str s => execute_tool fs s args
  | _ => errResult ("Tool '".data ++ tn.pyStr ++
      "' not found. Available tools: calculator, search_docs, web_fetch".data)

/-! ## Claims -/

/-- **C3.** Classification of a successfully parsed record follows the fixed
priority `done > refuse > tool`: a truthy `done` classifies as `Done` (with
the `answer` value, defaulting to `"Task completed."`) no matter what other
keys are present; with no truthy `done`, a truthy `refuse` classifies as
`Refuse`; and a record is classified as a `ToolCall` only when neither
`done` nor `refuse` is truthy and the `tool` value is truthy (non-empty).
That a `Done` round executes no tool is the terminality equation of
`C9_done_refuse_terminal`. -/
theorem C3_classification_priority (kvs : JObj) :
    ((kvs.getD "done".data .null).truthy = true →
      interpret kvs = .done (kvs.getD "answer".data (.str "Task completed.".data))) ∧
    ((kvs.getD "done".data .null).truthy = false →
      (kvs.getD "refuse".data .null).truthy = true →
      interpret kvs = .refuse (kvs.getD "reason".data (.str "Tool not appropriate".data))) ∧
    ((kvs.getD "done".data .null).truthy = false →
      (kvs.getD "refuse".data .null).truthy = false →
      (kvs.getD "tool".data .null).truthy = true →
      interpret kvs =
        .toolCall (kvs.getD "tool".data .null) (kvs.getD "arguments".data (.obj .nil))) ∧
    (∀ tn args, interpret kvs = .toolCall tn args →
      (kvs.getD "done".data .null).truthy = false ∧
      (kvs.getD "refuse".data .null).truthy = false ∧
      (kvs.getD "tool".data .null).truthy = true) := by
  refine ⟨fun hd => ?_, fun hd hr => ?_, fun hd hr ht => ?_, fun tn args h => ?_⟩
  · simp [interpret, hd]
  · simp [interpret, hd, hr]
  · simp [interpret, hd, hr, ht]
  · by_cases hd : (kvs.getD "done".data .null).truthy
    · simp [interpret, hd] at h
    · by_cases hr : (kvs.getD "refuse".data .null).truthy
      · simp [interpret, hd, hr] at h
      · by_cases ht : (kvs.getD "tool".data .null).truthy
        · exact ⟨by simpa using hd, by simpa using hr, ht⟩
        · simp [interpret, hd, hr, ht] at h

/-- Witness for C3 at concrete records: `\x7b"done": true, "tool": "calculator"\x7d`
is `Done`, `\x7b"refuse": true, "tool": "calculator"\x7d` is `Refuse`, and a
record with only a `tool` key is a `ToolCall`. -/
theorem C3_witness :
    interpret (.ofList [("done".data, .bool true), ("tool".data, .str "calculator".data)]) =
      .done (.str "Task completed.".data) ∧
    interpret (.ofList
        [("refuse".data, .bool true), ("tool".data, .str "calculator".data),
         ("reason".data, .str "no".data)]) = .refuse (.str "no".data) ∧
    interpret (.ofList [("tool".data, .str "calculator".data)]) =
      .toolCall (.str "calculator".data) (.obj .nil) := by
  refine ⟨?_, ?_, ?_⟩
  · exact (C3_classification_priority _).1 (by decide)
  · exact (C3_classification_priority _).2.1 (by decide) (by decide)
  · exact (C3_classification_priority _).2.2.1 (by decide) (by decide) (by decide)

/-- **C5.** When the generation call raises, the `except Exception` handler
returns `f"Error: \x7bstr(e)\x7d"` as the run's answer immediately: the
round's equation has no recursive call, so the run terminates there, and by
construction the model of `run` is a total function into answer values — a
fault is surfaced as an error-carrying text answer, never propagated. -/
theorem C5_generation_fault_is_answer (env : Json → Json → Json)
    (llm : Nat → GenEvent) (maxIter n : Nat) (st : LoopState) (e : Str)
    (h : llm st.callIdx = .raise e) :
    runAux env llm maxIter (n + 1) st = .str ("Error: ".data ++ e) := by
  simp [runAux, h]

/-- Witness for C5: a backend whose retries are exhausted on the first call
ends the run with the formatted error answer. -/
theorem C5_witness :
    ToolAgent.run (fun _ _ => .obj .nil)
      (fun _ => .raise "LLM call failed after 3 attempts: boom".data) 5 "q".data =
      .str "Error: LLM call failed after 3 attempts: boom".data :=
  C5_generation_fault_is_answer _ _ 5 4 _ _ rfl

/-- **C9.** A round classified `Done` or `Refuse` is terminal.  On a truthy
`done` the loop returns the record's `answer` value verbatim (the
`JObj.getD` default supplying `"Task completed."` when the key is absent);
with no truthy `done` and a truthy `refuse` it returns the fixed-format
refusal message embedding the stated reason (default
`"Tool not appropriate"`).  The third conjunct states terminality: the
outcome depends on no tool execution and on no generation call beyond the
current one — in particular a `Refuse` on iteration 1 ends the run after
one iteration. -/
theorem C9_done_refuse_terminal (env : Json → Json → Json) (llm : Nat → GenEvent)
    (maxIter n : Nat) (st : LoopState) (resp : Str) (kvs : JObj)
    (h1 : llm st.callIdx = .ok resp)
    (h2 : parse_response resp = some (.obj kvs)) :
    ((kvs.getD "done".data .null).truthy = true →
      runAux env llm maxIter (n + 1) st =
        kvs.getD "answer".data (.str "Task completed.".data)) ∧
    ((kvs.getD "done".data .null).truthy = false →
      (kvs.getD "refuse".data .null).truthy = true →
      runAux env llm maxIter (n + 1) st =
        .str (refuseAnswer (kvs.getD "reason".data (.str "Tool not appropriate".data)))) ∧
    (((kvs.getD "done".data .null).truthy = true ∨
       (kvs.getD "refuse".data .null).truthy = true) →
      ∀ (env' : Json → Json → Json) (llm' : Nat → GenEvent),
        llm' st.callIdx = llm st.callIdx →
        runAux env' llm' maxIter (n + 1) st = runAux env llm maxIter (n + 1) st) := by
  refine ⟨fun hd => ?_, fun hd hr => ?_, fun hdr env' llm' hsame => ?_⟩
  · simp [runAux, h1, h2, interpret, hd]
  · simp [runAux, h1, h2, interpret, hd, hr]
  · rcases hdr with hd | hr
    · simp [runAux, h1, hsame, h2, interpret, hd]
    · by_cases hd : (kvs.getD "done".data .null).truthy <;>
        simp [runAux, h1, hsame, h2, interpret, hd, hr]

/-- Witness for C9: a `Refuse` on iteration 1 returns the message embedding
`"out of scope"` after one round, and a bare `\x7b"done": true\x7d` returns the
default answer `"Task completed."`. -/
theorem C9_witness :
    ToolAgent.run (fun _ _ => .obj .nil)
      (fun _ => .ok "\x7b\"refuse\": true, \"reason\": \"out of scope\"\x7d".data)
      5 "q".data = .str "I cannot complete this task: out of scope".data ∧
    ToolAgent.run (fun _ _ => .obj .nil)
      (fun _ => .ok "\x7b\"done\": true\x7d".data) 5 "q".data =
      .str "Task completed.".data := by
  constructor
  · exact (C9_done_refuse_terminal _ _ 5 4 _ _
      (.ofList [("refuse".data, .bool true), ("reason".data, .str "out of scope".data)])
      rfl (by decide)).2.1 (by decide) (by decide)
  · exact (C9_done_refuse_terminal _ _ 5 4 _ _
      (.ofList [("done".data, .bool true)]) rfl (by decide)).1 (by decide)

/-- **C10.** `_parse_response` is total by construction (a Lean function
returning `Option Json`): it never raises and yields the decoded value or
`none`.  The decoded value need not be a mapping: when the response is
valid JSON that is not an object, the loop's `parsed.get("done")` raises
`AttributeError`, the `except Exception` handler catches it, and the run
terminates with an answer beginning `"Error:"` — unlike an unparseable
response, which merely appends the corrective instruction and reprompts
(second conjunct). -/
theorem C10_nonmapping_terminates_with_error (env : Json → Json → Json)
    (llm : Nat → GenEvent) (maxIter n : Nat) (st : LoopState) :
    (∀ (resp : Str) (v : Json), llm st.callIdx = .ok resp →
      parse_response resp = some v → (∀ kvs, v ≠ .obj kvs) →
      runAux env llm maxIter (n + 1) st =
        .str ("Error: ".data ++ noAttrMsg v "get".data) ∧
      "Error:".data.isPrefixOf ("Error: ".data ++ noAttrMsg v "get".data) = true) ∧
    (∀ resp : Str, llm st.callIdx = .ok resp → parse_response resp = none →
      runAux env llm maxIter (n + 1) st =
        runAux env llm maxIter n
          { st with prompt := st.prompt ++ invalidJsonMsg,
                    callIdx := st.callIdx + 1 }) := by
  constructor
  · intro resp v h1 h2 h3
    refine ⟨?_, rfl⟩
    cases v with
    | obj kvs => exact absurd rfl (h3 kvs)
    | null => simp [runAux, h1, h2]
    | bool b => simp [runAux, h1, h2]
    | num q => simp [runAux, h1, h2]
    | str s => simp [runAux, h1, h2]
    | arr xs => simp [runAux, h1, h2]
  · intro resp h1 h2
    simp [runAux, h1, h2]

/-- Witness for C10: the response `"5"` decodes to the non-mapping value
`5`, and the run answers `"Error: 'int' object has no attribute 'get'"`. -/
theorem C10_witness :
    parse_response "5".data = some (.num 5) ∧
    ToolAgent.run (fun _ _ => .obj .nil) (fun _ => .ok "5".data) 5 "q".data =
      .str "Error: 'int' object has no attribute 'get'".data := by
  refine ⟨by decide, ?_⟩
  exact ((C10_nonmapping_terminates_with_error _ _ 5 4 _).1 "5".data (.num 5) rfl
    (by decide) (fun kvs h => by cases h)).1

lemma strFindSubAux_isSome_shift (n t : Str) (i j : Nat) :
    (strFindSubAux n t i).isSome = (strFindSubAux n t j).isSome := by
  induction t generalizing i j with
  | nil => cases n <;> simp [strFindSubAux]
  | cons c rest ih =>
    simp only [strFindSubAux]
    by_cases h : n.isPrefixOf (c :: rest) <;> simp [h, ih (i + 1) (j + 1)]

/-- A substring of `t` is a substring of `s ++ t`. -/
lemma strContains_append_left (s t n : Str) (h : strContains t n = true) :
    strContains (s ++ t) n = true := by
  induction s with
  | nil => exact h
  | cons c rest ih =>
    simp only [strContains, strFindSub, List.cons_append, strFindSubAux]
    cases hp : n.isPrefixOf (c :: (rest ++ t)) with
    | true => simp [hp]
    | false =>
      simp only [hp, Bool.false_eq_true, if_false]
      show (strFindSubAux n (rest ++ t) (0 + 1)).isSome = true
      rw [strFindSubAux_isSome_shift n (rest ++ t) (0 + 1) 0]
      simpa [strContains, strFindSub] using ih

/-- **C7.** For every tool name absent from the registry and every argument
value, `execute_tool` returns the not-found failure record: `success` is
`False`, the error message contains the substring `"not found"`, and the
result depends on neither the arguments nor the filesystem — no tool is
invoked. -/
theorem C7_unknown_tool_not_found (fs : Option (List (Str × Str))) (name : Str)
    (args : Json)
    (h : ¬ (name = "calculator".data ∨ name = "search_docs".data ∨
            name = "web_fetch".data)) :
    execute_tool fs name args = notFoundResult name ∧
    resGet (execute_tool fs name args) "success".data = some (.bool false) ∧
    (∃ m : Str, resGet (execute_tool fs name args) "error".data = some (.str m) ∧
      strContains m "not found".data = true) ∧
    (∀ (fs' : Option (List (Str × Str))) (args' : Json),
      execute_tool fs' name args' = execute_tool fs name args) := by
  have he : ∀ fs' args', execute_tool fs' name args' = notFoundResult name := by
    intro fs' args'
    simp only [execute_tool, h, if_false]
  refine ⟨he fs args, ?_, ?_, fun fs' args' => (he fs' args').trans (he fs args).symm⟩
  · rw [he fs args]; rfl
  · rw [he fs args]
    refine ⟨_, rfl, ?_⟩
    have : ("Tool '".data ++ name ++
        "' not found. Available tools: calculator, search_docs, web_fetch".data) =
        ("Tool '".data ++ name) ++
        "' not found. Available tools: calculator, search_docs, web_fetch".data := by
      simp [List.append_assoc]
    rw [this]
    exact strContains_append_left _ _ _ (by decide)

/-- Witness for C7: the unregistered name `"calc"`. -/
theorem C7_witness :
    execute_tool none "calc".data (.obj .nil) = notFoundResult "calc".data ∧
    resGet (execute_tool none "calc".data (.obj .nil)) "success".data =
      some (.bool false) := by
  have h := C7_unknown_tool_not_found none "calc".data (.obj .nil) (by decide)
  exact ⟨h.1, h.2.1⟩

/-- **C8.** On well-formed calculator arguments the registry call reaches
`calculator` and computes the exact arithmetic result (numbers idealized as
rationals): `success=True` and `result` is `a+b`, `a-b`, `a*b`, or — when
`b ≠ 0` — `a/b`; `divide` with `b = 0` short-circuits to `success=False`
with an error message containing `"divide by zero"` case-insensitively. -/
theorem C8_calculator_correct (fs : Option (List (Str × Str))) (a b : ℚ) :
    (∀ op : Str, op = "add".data ∨ op = "subtract".data ∨ op = "multiply".data →
      ∃ r : ℚ, execute_tool fs "calculator".data
          (.obj (.ofList [("operation".data, .str op), ("a".data, .num a),
            ("b".data, .num b)])) =
          calcSuccess (.str op) (.num a) (.num b) (.num r) ∧
        ((op = "add".data → r = a + b) ∧ (op = "subtract".data → r = a - b) ∧
         (op = "multiply".data → r = a * b))) ∧
    (b ≠ 0 →
      execute_tool fs "calculator".data
        (.obj (.ofList [("operation".data, .str "divide".data), ("a".data, .num a),
          ("b".data, .num b)])) =
        calcSuccess (.str "divide".data) (.num a) (.num b) (.num (a / b))) ∧
    (b = 0 →
      execute_tool fs "calculator".data
        (.obj (.ofList [("operation".data, .str "divide".data), ("a".data, .num a),
          ("b".data, .num b)])) = errResult "Cannot divide by zero".data ∧
      strContains (strLower "Cannot divide by zero".data) "divide by zero".data =
        true) := by
  refine ⟨fun op hop => ?_, fun hb => ?_, fun hb => ?_⟩
  · rcases hop with h | h | h <;> subst h
    · exact ⟨a + b, rfl, by simp, by simp, by simp⟩
    · exact ⟨a - b, rfl, by simp, by simp, by simp⟩
    · exact ⟨a * b, rfl, by simp, by simp, by simp⟩
  · have h1 : execute_tool fs "calculator".data
        (.obj (.ofList [("operation".data, .str "divide".data), ("a".data, .num a),
          ("b".data, .num b)])) = calculator (.str "divide".data) (.num a) (.num b) := rfl
    rw [h1]
    simp [calculator, pyEqZero, pyToNum, hb, pyDiv]
  · subst hb
    exact ⟨rfl, by decide⟩

/-- Witness for C8: `7 * 8 = 56` exactly, and `10 / 0` fails with the
divide-by-zero message. -/
theorem C8_witness :
    execute_tool none "calculator".data
      (.obj (.ofList [("operation".data, .str "multiply".data), ("a".data, .num 7),
        ("b".data, .num 8)])) =
      calcSuccess (.str "multiply".data) (.num 7) (.num 8) (.num 56) ∧
    execute_tool none "calculator".data
      (.obj (.ofList [("operation".data, .str "divide".data), ("a".data, .num 10),
        ("b".data, .num 0)])) = errResult "Cannot divide by zero".data := by
  constructor
  · obtain ⟨r, hr, -, -, hm⟩ :=
      ((C8_calculator_correct none 7 8).1 "multiply".data (by decide))
    rw [hr, hm rfl]
    decide
  · exact (((C8_calculator_correct none 10 0).2.2) rfl).1

/-- **C6.** `execute_tool` is total (a Lean function into result records —
nothing escapes to the loop) and converts every fault of the invocation of a
registered tool into a `success=False` record carrying the fault's message:
a dispatch `TypeError` (missing or unexpected keys) becomes the
invalid-arguments record, any other exception the generic failure record,
and applying `**` to a non-mapping argument value becomes the
invalid-arguments record for that `TypeError`; when the call returns
normally its result is passed through unchanged.  (The registered bodies
catch their own internal exceptions, so `toolCall` is the complete fault
surface of the invocation.) -/
theorem C6_faults_become_results (fs : Option (List (Str × Str))) (name : Str)
    (args : Json)
    (hmem : name = "calculator".data ∨ name = "search_docs".data ∨
      name = "web_fetch".data) :
    (∀ (kvs : JObj) (m : Str), args = .obj kvs →
      toolCall fs name kvs = .error (.typeError m) →
      execute_tool fs name args = invalidArgsResult name m ∧
      resGet (execute_tool fs name args) "success".data = some (.bool false) ∧
      resGet (execute_tool fs name args) "error".data =
        some (.str ("Invalid arguments for tool '".data ++ name ++ "': ".data ++ m))) ∧
    (∀ (kvs : JObj) (m : Str), args = .obj kvs →
      toolCall fs name kvs = .error (.other m) →
      execute_tool fs name args = toolFailedResult m ∧
      resGet (execute_tool fs name args) "success".data = some (.bool false) ∧
      resGet (execute_tool fs name args) "error".data =
        some (.str ("Tool execution failed: ".data ++ m))) ∧
    ((∀ kvs : JObj, args ≠ .obj kvs) →
      execute_tool fs name args = invalidArgsResult name (starStarMsg name args) ∧
      resGet (execute_tool fs name args) "success".data = some (.bool false)) ∧
    (∀ (kvs : JObj) (r : Json), args = .obj kvs → toolCall fs name kvs = .ok r →
      execute_tool fs name args = r) := by
  refine ⟨fun kvs m ha ht => ?_, fun kvs m ha ht => ?_, fun hno => ?_,
    fun kvs r ha ht => ?_⟩
  · subst ha
    have he : execute_tool fs name (.obj kvs) = invalidArgsResult name m := by
      simp [execute_tool, hmem, ht]
    exact ⟨he, by rw [he]; rfl, by rw [he]; rfl⟩
  · subst ha
    have he : execute_tool fs name (.obj kvs) = toolFailedResult m := by
      simp [execute_tool, hmem, ht]
    exact ⟨he, by rw [he]; rfl, by rw [he]; rfl⟩
  · have he : execute_tool fs name args = invalidArgsResult name (starStarMsg name args) := by
      cases args with
      | obj kvs => exact absurd rfl (hno kvs)
      | null => simp [execute_tool, hmem]
      | bool b => simp [execute_tool, hmem]
      | num q => simp [execute_tool, hmem]
      | str s => simp [execute_tool, hmem]
      | arr xs => simp [execute_tool, hmem]
    exact ⟨he, by rw [he]; rfl⟩
  · subst ha
    simp [execute_tool, hmem, ht]

/-- Witness for C6: a `calculator` call missing `b` is converted to the
invalid-arguments record, and `**`-unpacking a list argument likewise. -/
theorem C6_witness :
    execute_tool none "calculator".data
      (.obj (.ofList [("operation".data, .str "add".data), ("a".data, .num 2)])) =
      invalidArgsResult "calculator".data
        "calculator() missing 1 required positional argument: 'b'".data ∧
    execute_tool none "calculator".data (.arr .nil) =
      invalidArgsResult "calculator".data
        (starStarMsg "calculator".data (.arr .nil)) := by
  constructor
  · exact ((C6_faults_become_results none "calculator".data
      (.obj (.ofList [("operation".data, .str "add".data), ("a".data, .num 2)]))
      (Or.inl rfl)).1
      (.ofList [("operation".data, .str "add".data), ("a".data, .num 2)])
      "calculator() missing 1 required positional argument: 'b'".data rfl rfl).1
  · exact ((C6_faults_become_results none "calculator".data (.arr .nil)
      (Or.inl rfl)).2.2.1 (fun kvs h => by cases h)).1

/-! ### Order lemmas for `sort_keys` and key-permutation invariance. -/

/-- Structural induction on the entry spine of an object (the values are
not recursed into). -/
@[induction_eliminator]
def JObj.inductionOn {motive : JObj → Prop} (nil : motive .nil)
    (cons : ∀ k v t, motive t → motive (.cons k v t)) : ∀ l, motive l
  | .nil => nil
  | .cons k v t => cons k v t (JObj.inductionOn nil cons t)

lemma strLt_irrefl (a : Str) : strLt a a = false := by
  induction a with
  | nil => rfl
  | cons x xs ih => simp [strLt, ih]

lemma strLt_asymm : ∀ a b : Str, strLt a b = true → strLt b a = false := by
  intro a
  induction a with
  | nil =>
    intro b h
    cases b with
    | nil => simp [strLt] at h
    | cons y ys => rfl
  | cons x xs ih =>
    intro b h
    cases b with
    | nil => simp [strLt] at h
    | cons y ys =>
      simp only [strLt] at h ⊢
      by_cases hxy : x < y
      · simp [lt_asymm hxy, hxy]
      · by_cases hyx : y < x
        · simp [hxy, hyx] at h
        · have hx : x = y := le_antisymm (le_of_not_lt hyx) (le_of_not_lt hxy)
          subst hx
          simp only [hxy, if_false, lt_irrefl] at h ⊢
          exact ih ys h

lemma strLt_eq_of_both_false : ∀ a b : Str, strLt a b = false → strLt b a = false →
    a = b := by
  intro a
  induction a with
  | nil =>
    intro b h _
    cases b with
    | nil => rfl
    | cons y ys => simp [strLt] at h
  | cons x xs ih =>
    intro b h h'
    cases b with
    | nil => simp [strLt] at h'
    | cons y ys =>
      simp only [strLt] at h h'
      by_cases hxy : x < y
      · simp [hxy] at h
      · by_cases hyx : y < x
        · simp [hyx, lt_asymm hyx] at h'
        · have hx : x = y := le_antisymm (le_of_not_lt hyx) (le_of_not_lt hxy)
          subst hx
          simp only [lt_irrefl, if_false] at h h'
          rw [ih ys h h']

lemma strLt_trans_aux : ∀ a b c : Str, strLt a b = true → strLt b c = true →
    strLt a c = true := by
  intro a
  induction a with
  | nil =>
    intro b c h h'
    cases b with
    | nil => simp [strLt] at h
    | cons y ys =>
      cases c with
      | nil => simp [strLt] at h'
      | cons z zs => rfl
  | cons x xs ih =>
    intro b c h h'
    cases b with
    | nil => simp [strLt] at h
    | cons y ys =>
      cases c with
      | nil => simp [strLt] at h'
      | cons z zs =>
        simp only [strLt] at h h' ⊢
        by_cases hxy : x < y
        · by_cases hyz : y < z
          · simp [lt_trans hxy hyz]
          · by_cases hzy : z < y
            · simp [hyz, hzy] at h'
            · have : y = z := le_antisymm (le_of_not_lt hzy) (le_of_not_lt hyz)
              subst this
              simp [hxy]
        · by_cases hyx : y < x
          · simp [hxy, hyx] at h
          · have : x = y := le_antisymm (le_of_not_lt hyx) (le_of_not_lt hxy)
            subst this
            simp only [lt_irrefl, if_false] at h
            by_cases hyz : x < z
            · simp [hyz]
            · by_cases hzy : z < x
              · simp [hyz, hzy] at h'
              · have : x = z := le_antisymm (le_of_not_lt hzy) (le_of_not_lt hyz)
                subst this
                simp only [lt_irrefl, if_false] at h' ⊢
                exact ih ys zs h h'

/-- "key of `p` is at most key of `q`": the order maintained by
`sort_keys`. -/
def keyLe (p q : Str × Json) : Prop :=
  strLt q.1 p.1 = false

/-- Entries are sorted by key. -/
def KeySorted (l : JObj) : Prop :=
  l.toList.Pairwise keyLe

/-- Keys are pairwise distinct (true of every Python dict). -/
def KeysNodup (l : JObj) : Prop :=
  (l.toList.map Prod.fst).Nodup

lemma toList_insertSorted (k : Str) (v : Json) (l : JObj) :
    List.Perm (JObj.insertSorted k v l).toList ((k, v) :: l.toList) := by
  induction l with
  | nil => simp [JObj.insertSorted, JObj.toList]
  | cons k' v' t ih =>
    simp only [JObj.insertSorted]
    by_cases h : strLt k k'
    · simp [h, JObj.toList]
    · simp only [h, Bool.false_eq_true, if_false, JObj.toList]
      exact (ih.cons (k', v')).trans (List.Perm.swap (k, v) (k', v') t.toList)

lemma keyLe_total (p q : Str × Json) : keyLe p q ∨ keyLe q p := by
  unfold keyLe
  by_cases h : strLt q.1 p.1 = false
  · exact Or.inl h
  · exact Or.inr (strLt_asymm _ _ (by revert h; cases strLt q.1 p.1 <;> simp))

lemma keySorted_insertSorted (k : Str) (v : Json) :
    ∀ l : JObj, KeySorted l → KeySorted (JObj.insertSorted k v l) := by
  intro l
  induction l with
  | nil =>
    intro _
    unfold KeySorted
    simp [JObj.insertSorted, JObj.toList]
  | cons k' v' t ih =>
    intro hs
    have hs' : List.Pairwise keyLe ((k', v') :: t.toList) := hs
    obtain ⟨hall, hsTail'⟩ := List.pairwise_cons.mp hs'
    have hsTail : KeySorted t := hsTail'
    by_cases h : strLt k k' = true
    · have hrw : JObj.insertSorted k v (.cons k' v' t) = .cons k v (.cons k' v' t) := by
        simp [JObj.insertSorted, h]
      unfold KeySorted
      rw [hrw]
      show List.Pairwise keyLe ((k, v) :: (k', v') :: t.toList)
      refine List.pairwise_cons.mpr ⟨?_, List.pairwise_cons.mpr ⟨hall, hsTail⟩⟩
      intro p hp
      rcases List.mem_cons.mp hp with hp | hp
      · subst hp
        exact strLt_asymm _ _ h
      · have hk' : keyLe (k', v') p := hall p hp
        unfold keyLe at hk' ⊢
        by_cases hc : strLt p.1 k = true
        · rw [strLt_trans_aux p.1 k k' hc h] at hk'
          cases hk'
        · revert hc
          cases strLt p.1 k <;> simp
    · have hrw : JObj.insertSorted k v (.cons k' v' t) =
          .cons k' v' (JObj.insertSorted k v t) := by
        simp [JObj.insertSorted, h]
      unfold KeySorted
      rw [hrw]
      show List.Pairwise keyLe ((k', v') :: (JObj.insertSorted k v t).toList)
      refine List.pairwise_cons.mpr ⟨?_, ih hsTail⟩
      intro p hp
      rcases List.mem_cons.mp ((toList_insertSorted k v t).mem_iff.mp hp) with hp' | hp'
      · subst hp'
        unfold keyLe
        revert h
        cases strLt k k' <;> simp
      · exact hall p hp'

lemma toList_sortKeys (l : JObj) : List.Perm (JObj.sortKeys l).toList l.toList := by
  induction l with
  | nil => simp [JObj.sortKeys]
  | cons k v t ih =>
    show List.Perm (JObj.insertSorted k v (JObj.sortKeys t)).toList ((k, v) :: t.toList)
    exact (toList_insertSorted k v (JObj.sortKeys t)).trans (ih.cons (k, v))

lemma keySorted_sortKeys (l : JObj) : KeySorted (JObj.sortKeys l) := by
  induction l with
  | nil =>
    unfold KeySorted
    simp [JObj.sortKeys, JObj.toList]
  | cons k v t ih => exact keySorted_insertSorted k v _ ih

/-- Two key-sorted objects with the same entries (as a multiset) and
duplicate-free keys are equal. -/
lemma keySorted_nodup_unique :
    ∀ l₁ l₂ : JObj, List.Perm l₁.toList l₂.toList → KeySorted l₁ → KeySorted l₂ →
      KeysNodup l₁ → l₁ = l₂ := by
  intro l₁
  induction l₁ with
  | nil =>
    intro l₂ hp _ _ _
    cases l₂ with
    | nil => rfl
    | cons k v t =>
      have := hp.length_eq
      simp [JObj.toList] at this
  | cons k v t ih =>
    intro l₂ hp hs1 hs2 hnd
    cases l₂ with
    | nil =>
      have := hp.length_eq
      simp [JObj.toList] at this
    | cons k2 v2 t2 =>
      have hs1' : List.Pairwise keyLe ((k, v) :: t.toList) := hs1
      have hs2' : List.Pairwise keyLe ((k2, v2) :: t2.toList) := hs2
      obtain ⟨hall1, hstail1⟩ := List.pairwise_cons.mp hs1'
      obtain ⟨hall2, hstail2⟩ := List.pairwise_cons.mp hs2'
      have hp' : List.Perm ((k, v) :: t.toList) ((k2, v2) :: t2.toList) := hp
      have hnd' : (((k, v) :: t.toList).map Prod.fst).Nodup := hnd
      have hmapc : ((k, v) :: t.toList).map Prod.fst = k :: t.toList.map Prod.fst := rfl
      obtain ⟨hnotmem, hndTail⟩ := List.nodup_cons.mp (hmapc ▸ hnd')
      have hmem2 : (k2, v2) ∈ (k, v) :: t.toList :=
        hp'.symm.subset (List.mem_cons_self _ _)
      have hmem1 : (k, v) ∈ (k2, v2) :: t2.toList :=
        hp'.subset (List.mem_cons_self _ _)
      have hheads : (k2, v2) = (k, v) := by
        rcases List.mem_cons.mp hmem2 with h2 | h2
        · exact h2
        · -- the other head lies in our tail: both keys compare ≤, so equal,
          -- contradicting key nodup
          have hle1 : keyLe (k, v) (k2, v2) := hall1 _ h2
          have hkeq : k = k2 := by
            rcases List.mem_cons.mp hmem1 with h1 | h1
            · exact (congrArg Prod.fst h1)
            · have hle2 : keyLe (k2, v2) (k, v) := hall2 _ h1
              exact strLt_eq_of_both_false k k2 hle2 hle1
          exfalso
          exact hnotmem (hkeq ▸ (List.mem_map_of_mem Prod.fst h2))
      obtain ⟨hk2, hv2⟩ := Prod.mk.injEq .. ▸ hheads
      subst hk2
      subst hv2
      have htails : List.Perm t.toList t2.toList := hp'.cons_inv
      rw [ih t2 htails hstail1 hstail2 hndTail]

lemma sortKeys_eq_of_perm (l₁ l₂ : JObj) (hp : List.Perm l₁.toList l₂.toList)
    (hnd : KeysNodup l₁) : JObj.sortKeys l₁ = JObj.sortKeys l₂ := by
  apply keySorted_nodup_unique
  · exact (toList_sortKeys l₁).trans (hp.trans (toList_sortKeys l₂).symm)
  · exact keySorted_sortKeys l₁
  · exact keySorted_sortKeys l₂
  · unfold KeysNodup at hnd ⊢
    exact ((toList_sortKeys l₁).map Prod.fst).nodup_iff.mpr hnd

lemma toList_sortDeepObj (l : JObj) :
    (JObj.sortDeep l).toList = l.toList.map (fun p => (p.1, Json.sortDeep p.2)) := by
  induction l with
  | nil => rfl
  | cons k v t ih => simp [JObj.sortDeep, JObj.toList, ih]

/-- Reordering the entries of an argument object (duplicate-free keys) does
not change its `sort_keys=True` serialization. -/
lemma dumps_sorted_perm_invariant (l₁ l₂ : JObj)
    (hp : List.Perm l₁.toList l₂.toList) (hnd : KeysNodup l₁) :
    dumps true none (.obj l₁) = dumps true none (.obj l₂) := by
  suffices h : JObj.sortKeys (JObj.sortDeep l₁) = JObj.sortKeys (JObj.sortDeep l₂) by
    show Json.render none 0 (Json.sortDeep (.obj l₁)) =
      Json.render none 0 (Json.sortDeep (.obj l₂))
    show Json.render none 0 (.obj (JObj.sortKeys (JObj.sortDeep l₁))) =
      Json.render none 0 (.obj (JObj.sortKeys (JObj.sortDeep l₂)))
    rw [h]
  apply sortKeys_eq_of_perm
  · rw [toList_sortDeepObj, toList_sortDeepObj]
    exact hp.map _
  · unfold KeysNodup
    rw [toList_sortDeepObj, List.map_map]
    have hfst : (Prod.fst ∘ fun p : Str × Json => (p.1, Json.sortDeep p.2)) =
        (Prod.fst : Str × Json → Str) := by
      funext p
      rfl
    rw [hfst]
    exact hnd

/-- **C1.** Repetition detection.  When a round's `ToolCall` fingerprint
(tool name with arguments serialized under `sort_keys=True`) equals the
stored previous fingerprint, the tool is not executed: the round appends the
forced-completion instruction, clears the stored fingerprint, and continues
(first conjunct — the continuation state keeps `history` unchanged and
holds `lastToolCall = none`).  When the fingerprints differ — in particular
on the round after a skip, where the cleared `none` matches nothing, so a
third consecutive identical call is treated as fresh — the tool is executed
and recorded (second conjunct).  Key ordering never affects fingerprint
identity: permuting an argument object's entries (keys are unique in a
dict) yields the same fingerprint (third conjunct). -/
theorem C1_repetition_detection (llm : Nat → GenEvent) (maxIter n : Nat)
    (st : LoopState) (resp : Str) (kvs : JObj) (tn args : Json)
    (h1 : llm st.callIdx = .ok resp)
    (h2 : parse_response resp = some (.obj kvs))
    (h3 : interpret kvs = .toolCall tn args) :
    (∀ env : Json → Json → Json,
      lastEq st.lastToolCall (fingerprint tn args) = true →
      runAux env llm maxIter (n + 1) st =
        runAux env llm maxIter n
          { st with prompt := st.prompt ++ forcedDoneMsg,
                    callIdx := st.callIdx + 1, lastToolCall := none }) ∧
    (∀ (env : Json → Json → Json) (rkvs : JObj),
      lastEq st.lastToolCall (fingerprint tn args) = false →
      env tn args = .obj rkvs →
      runAux env llm maxIter (n + 1) st =
        runAux env llm maxIter n
          { prompt := st.prompt ++
              (if (JObj.getD rkvs "success".data .null).truthy then
                successSuffix tn args (.obj rkvs)
              else failureSuffix tn args (.obj rkvs)),
            callIdx := st.callIdx + 1,
            history := st.history ++ [(tn, args, .obj rkvs)],
            lastToolCall := some (fingerprint tn args) }) ∧
    (∀ (tn' : Json) (l₁ l₂ : JObj), List.Perm l₁.toList l₂.toList → KeysNodup l₁ →
      fingerprint tn' (.obj l₁) = fingerprint tn' (.obj l₂)) := by
  refine ⟨fun env hfp => ?_, fun env rkvs hfp henv => ?_, fun tn' l₁ l₂ hp hnd => ?_⟩
  · simp [runAux, h1, h2, h3, hfp]
  · simp [runAux, h1, h2, h3, hfp, henv]
  · unfold fingerprint
    rw [dumps_sorted_perm_invariant l₁ l₂ hp hnd]

/-- Witness for C1: a repeated `calculator` call is skipped with the
fingerprint cleared, the identical call is executed from the cleared state,
and the two argument orders `\x7ba,b\x7d` / `\x7bb,a\x7d` share one fingerprint. -/
theorem C1_witness :
    runAux (fun _ _ => .obj (.cons "success".data (.bool true) .nil))
      (fun _ => .ok "\x7b\"tool\": \"calculator\", \"arguments\": \x7b\"b\": 2, \"a\": 1\x7d\x7d".data)
      5 2
      { prompt := [], callIdx := 0, history := [],
        lastToolCall := some (fingerprint (.str "calculator".data)
          (.obj (.cons "b".data (.num 2) (.cons "a".data (.num 1) .nil)))) } =
      runAux (fun _ _ => .obj (.cons "success".data (.bool true) .nil))
        (fun _ => .ok "\x7b\"tool\": \"calculator\", \"arguments\": \x7b\"b\": 2, \"a\": 1\x7d\x7d".data)
        5 1
        { prompt := [] ++ forcedDoneMsg, callIdx := 0 + 1, history := [],
          lastToolCall := none } ∧
    runAux (fun _ _ => .obj (.cons "success".data (.bool true) .nil))
      (fun _ => .ok "\x7b\"tool\": \"calculator\", \"arguments\": \x7b\"b\": 2, \"a\": 1\x7d\x7d".data)
      5 1
      { prompt := [], callIdx := 0, history := [], lastToolCall := none } =
      runAux (fun _ _ => .obj (.cons "success".data (.bool true) .nil))
        (fun _ => .ok "\x7b\"tool\": \"calculator\", \"arguments\": \x7b\"b\": 2, \"a\": 1\x7d\x7d".data)
        5 0
        { prompt := [] ++ successSuffix (.str "calculator".data)
            (.obj (.cons "b".data (.num 2) (.cons "a".data (.num 1) .nil)))
            (.obj (.cons "success".data (.bool true) .nil)),
          callIdx := 0 + 1,
          history := [] ++ [((.str "calculator".data),
            (.obj (.cons "b".data (.num 2) (.cons "a".data (.num 1) .nil))),
            (.obj (.cons "success".data (.bool true) .nil)))],
          lastToolCall := some (fingerprint (.str "calculator".data)
            (.obj (.cons "b".data (.num 2) (.cons "a".data (.num 1) .nil)))) } ∧
    fingerprint (.str "calculator".data)
      (.obj (.cons "a".data (.num 1) (.cons "b".data (.num 2) .nil))) =
      fingerprint (.str "calculator".data)
        (.obj (.cons "b".data (.num 2) (.cons "a".data (.num 1) .nil))) := by
  have hC := C1_repetition_detection
    (fun _ => .ok "\x7b\"tool\": \"calculator\", \"arguments\": \x7b\"b\": 2, \"a\": 1\x7d\x7d".data)
    5 1
    { prompt := [], callIdx := 0, history := [],
      lastToolCall := some (fingerprint (.str "calculator".data)
        (.obj (.cons "b".data (.num 2) (.cons "a".data (.num 1) .nil)))) }
    "\x7b\"tool\": \"calculator\", \"arguments\": \x7b\"b\": 2, \"a\": 1\x7d\x7d".data
    (.cons "tool".data (.str "calculator".data)
      (.cons "arguments".data
        (.obj (.cons "b".data (.num 2) (.cons "a".data (.num 1) .nil))) .nil))
    (.str "calculator".data)
    (.obj (.cons "b".data (.num 2) (.cons "a".data (.num 1) .nil)))
    rfl (by decide) (by decide)
  have hC2 := C1_repetition_detection
    (fun _ => .ok "\x7b\"tool\": \"calculator\", \"arguments\": \x7b\"b\": 2, \"a\": 1\x7d\x7d".data)
    5 0
    { prompt := [], callIdx := 0, history := [], lastToolCall := none }
    "\x7b\"tool\": \"calculator\", \"arguments\": \x7b\"b\": 2, \"a\": 1\x7d\x7d".data
    (.cons "tool".data (.str "calculator".data)
      (.cons "arguments".data
        (.obj (.cons "b".data (.num 2) (.cons "a".data (.num 1) .nil))) .nil))
    (.str "calculator".data)
    (.obj (.cons "b".data (.num 2) (.cons "a".data (.num 1) .nil)))
    rfl (by decide) (by decide)
  refine ⟨hC.1 _ (by decide), hC2.2.1 _ (.cons "success".data (.bool true) .nil)
    (by decide) rfl, hC.2.2 _ _ _ ?_ (by unfold KeysNodup; decide)⟩
  show List.Perm [("a".data, Json.num 1), ("b".data, Json.num 2)]
    [("b".data, Json.num 2), ("a".data, Json.num 1)]
  exact List.Perm.swap _ _ _

/-- The spec's "number of tool calls actually made" (§4.4 step 9, §7): over
the remaining rounds, count the `ToolCall` rounds that invoke a tool;
malformed rounds, missing-name rounds and repetition skips (which clear the
remembered fingerprint) are not counted.  Defined from the spec's words, to
be compared with the count the code embeds in its budget message. -/
def execCount (llm : Nat → GenEvent) : Nat → Nat → Option (Json × Str) → Nat
  | 0, _, _ => 0
  | n + 1, idx, last =>
    match llm idx with
    | .raise _ => 0
    | .ok resp =>
      match parse_response resp with
      | none => execCount llm n (idx + 1) last
      | some (.obj kvs) =>
        match interpret kvs with
        | .toolCall tn args =>
          if lastEq last (fingerprint tn args) then execCount llm n (idx + 1) none
          else 1 + execCount llm n (idx + 1) (some (fingerprint tn args))
        | .noTool => execCount llm n (idx + 1) last
        | _ => 0
      | some _ => 0

/-- The loop consults the oracle only at the indices of its remaining
rounds: generation calls are bounded by the remaining budget. -/
lemma runAux_llm_congr (env : Json → Json → Json) (llm llm' : Nat → GenEvent)
    (maxIter : Nat) :
    ∀ (n : Nat) (st : LoopState),
      (∀ i, st.callIdx ≤ i → i < st.callIdx + n → llm' i = llm i) →
      runAux env llm' maxIter n st = runAux env llm maxIter n st := by
  intro n
  induction n with
  | zero => intro st _; rfl
  | succ n ih =>
    intro st hagree
    have h0 : llm' st.callIdx = llm st.callIdx := hagree _ le_rfl (by omega)
    have hnext : ∀ (st' : LoopState), st'.callIdx = st.callIdx + 1 →
        (∀ i, st'.callIdx ≤ i → i < st'.callIdx + n → llm' i = llm i) := by
      intro st' hidx i hi1 hi2
      rw [hidx] at hi1 hi2
      exact hagree i (by omega) (by omega)
    cases hl : llm st.callIdx with
    | raise e => simp [runAux, h0, hl]
    | ok resp =>
      cases hp : parse_response resp with
      | none =>
        simp only [runAux, h0, hl, hp]
        exact ih _ (hnext _ rfl)
      | some v =>
        cases v with
        | obj kvs =>
          cases hint : interpret kvs with
          | done answer => simp [runAux, h0, hl, hp, hint]
          | refuse reason => simp [runAux, h0, hl, hp, hint]
          | noTool =>
            simp only [runAux, h0, hl, hp, hint]
            exact ih _ (hnext _ rfl)
          | toolCall tn args =>
            simp only [runAux, h0, hl, hp, hint]
            by_cases hfp : lastEq st.lastToolCall (fingerprint tn args) = true
            · simp only [hfp, if_true]
              exact ih _ (hnext _ rfl)
            · simp only [Bool.not_eq_true] at hfp
              simp only [hfp, Bool.false_eq_true, if_false]
              cases he : env tn args with
              | obj rkvs => exact ih _ (hnext _ rfl)
              | null => rfl
              | bool b => rfl
              | num q => rfl
              | str s => rfl
              | arr xs => rfl
        | null => simp [runAux, h0, hl, hp]
        | bool b => simp [runAux, h0, hl, hp]
        | num q => simp [runAux, h0, hl, hp]
        | str s => simp [runAux, h0, hl, hp]
        | arr xs => simp [runAux, h0, hl, hp]

/-- Budget characterization: when every remaining round's response either
fails to parse or parses to an object with neither `done` nor `refuse`
truthy, and the tool boundary always returns a dict, the loop exhausts its
budget and reports the executed-call count. -/
lemma runAux_budget (env : Json → Json → Json) (llm : Nat → GenEvent)
    (maxIter : Nat)
    (Henv : ∀ tn args, ∃ rkvs : JObj, env tn args = .obj rkvs) :
    ∀ (n : Nat) (st : LoopState),
      (∀ i, st.callIdx ≤ i → i < st.callIdx + n → ∃ resp, llm i = .ok resp ∧
        (parse_response resp = none ∨
          ∃ kvs : JObj, parse_response resp = some (.obj kvs) ∧
            (kvs.getD "done".data .null).truthy = false ∧
            (kvs.getD "refuse".data .null).truthy = false)) →
      runAux env llm maxIter n st =
        .str (budgetMsg maxIter
          (st.history.length + execCount llm n st.callIdx st.lastToolCall)) := by
  intro n
  induction n with
  | zero =>
    intro st _
    simp [runAux, execCount]
  | succ n ih =>
    intro st H
    obtain ⟨resp, hok, hcase⟩ := H st.callIdx le_rfl (by omega)
    have hnext : ∀ (st' : LoopState), st'.callIdx = st.callIdx + 1 →
        (∀ i, st'.callIdx ≤ i → i < st'.callIdx + n → ∃ resp, llm i = .ok resp ∧
          (parse_response resp = none ∨
            ∃ kvs : JObj, parse_response resp = some (.obj kvs) ∧
              (kvs.getD "done".data .null).truthy = false ∧
              (kvs.getD "refuse".data .null).truthy = false)) := by
      intro st' hidx i hi1 hi2
      rw [hidx] at hi1 hi2
      exact H i (by omega) (by omega)
    rcases hcase with hp | ⟨kvs, hp, hd, hr⟩
    · simp only [runAux, hok, hp, execCount]
      exact ih _ (hnext _ rfl)
    · have hint : interpret kvs = .noTool ∨
          ∃ tn args, interpret kvs = .toolCall tn args := by
        by_cases ht : (kvs.getD "tool".data .null).truthy
        · refine Or.inr ⟨kvs.getD "tool".data .null,
            kvs.getD "arguments".data (.obj .nil), ?_⟩
          simp [interpret, hd, hr, ht]
        · simp only [Bool.not_eq_true] at ht
          exact Or.inl (by simp [interpret, hd, hr, ht])
      rcases hint with hint | ⟨tn, args, hint⟩
      · simp only [runAux, hok, hp, hint, execCount]
        exact ih _ (hnext _ rfl)
      · by_cases hfp : lastEq st.lastToolCall (fingerprint tn args) = true
        · simp only [runAux, hok, hp, hint, hfp, if_true, execCount]
          exact ih _ (hnext _ rfl)
        · simp only [Bool.not_eq_true] at hfp
          obtain ⟨rkvs, he⟩ := Henv tn args
          simp only [runAux, hok, hp, hint, hfp, Bool.false_eq_true, if_false,
            execCount, he]
          rw [ih _ (hnext _ rfl)]
          have harith :
              st.history.length + 1 +
                execCount llm n (st.callIdx + 1) (some (fingerprint tn args)) =
              st.history.length +
                (1 + execCount llm n (st.callIdx + 1) (some (fingerprint tn args))) := by
            omega
          simp [harith]

/-- **C2 (counterexample).** A model-response sequence in which no round is
classified `Done` or `Refuse` and no generation fault is raised, yet
`ToolAgent.run` does not perform `max_iterations` rounds: the constant
response `"5"` is valid JSON but not a mapping, so the first round's
`parsed.get` raises `AttributeError` and the run returns an `"Error: ..."`
answer — not a budget-exhausted message — after one round. -/
theorem C2_counterexample :
    parse_response "5".data = some (.num 5) ∧
    ToolAgent.run (fun _ _ => .obj .nil) (fun _ => .ok "5".data) 5 "q".data =
      .str "Error: 'int' object has no attribute 'get'".data ∧
    (∀ k : Nat, Json.str (budgetMsg 5 k) ≠
      ToolAgent.run (fun _ _ => .obj .nil) (fun _ => .ok "5".data) 5 "q".data) := by
  refine ⟨by decide, by decide, ?_⟩
  intro k h
  rw [show ToolAgent.run (fun _ _ => .obj .nil) (fun _ => .ok "5".data) 5 "q".data =
      .str "Error: 'int' object has no attribute 'get'".data from by decide] at h
  have hlist : budgetMsg 5 k = "Error: 'int' object has no attribute 'get'".data := by
    injection h
  have hc : (budgetMsg 5 k).head? = some 'C' := rfl
  rw [hlist] at hc
  simp at hc

/-- **C2 (amended).** For every question and every model-response sequence
in which no generation fault is raised and every round's response either
fails to parse or parses to a JSON *object* with neither `done` nor
`refuse` truthy (the amendment excludes responses decoding to non-mapping
JSON, which abort the run with an `"Error: ..."` answer, see C10), and with
the tool boundary returning result dicts (as `execute_tool` always does),
`ToolAgent.run` consults the model exactly once per round for
`max_iterations` rounds — the outcome is the budget-exhausted message and
depends only on the first `max_iterations` oracle answers — and that
message reports the number of tool calls actually executed, not counting
rounds skipped as malformed, missing-name, or repetition. -/
theorem C2_amended_budget_exhaustion (env : Json → Json → Json)
    (llm : Nat → GenEvent) (maxIter : Nat) (q : Str)
    (Henv : ∀ tn args, ∃ rkvs : JObj, env tn args = .obj rkvs)
    (H : ∀ i, i < maxIter → ∃ resp, llm i = .ok resp ∧
      (parse_response resp = none ∨
        ∃ kvs : JObj, parse_response resp = some (.obj kvs) ∧
          (kvs.getD "done".data .null).truthy = false ∧
          (kvs.getD "refuse".data .null).truthy = false)) :
    ToolAgent.run env llm maxIter q =
      .str (budgetMsg maxIter (execCount llm maxIter 0 none)) ∧
    (∀ llm' : Nat → GenEvent, (∀ i, i < maxIter → llm' i = llm i) →
      ToolAgent.run env llm' maxIter q = ToolAgent.run env llm maxIter q) := by
  constructor
  · have h := runAux_budget env llm maxIter Henv maxIter
      { prompt := build_prompt q, callIdx := 0, history := [], lastToolCall := none }
      (by intro i h1 h2; simp at h2; exact H i (by omega))
    simpa [ToolAgent.run] using h
  · intro llm' hagree
    exact runAux_llm_congr env llm llm' maxIter maxIter
      { prompt := build_prompt q, callIdx := 0, history := [], lastToolCall := none }
      (by intro i h1 h2; simp at h2; exact hagree i (by omega))

/-- Witness for the amended C2: a model that repeats one `calculator` call
for all five rounds exhausts the budget with three executed calls (rounds
2 and 4 are repetition-skipped). -/
theorem C2_witness :
    ToolAgent.run (fun _ _ => .obj (.cons "success".data (.bool true) .nil))
      (fun _ => .ok "\x7b\"tool\": \"calculator\", \"arguments\": \x7b\"operation\": \"add\", \"a\": 1, \"b\": 2\x7d\x7d".data)
      5 "q".data = .str (budgetMsg 5 3) := by
  have h := (C2_amended_budget_exhaustion
    (fun _ _ => .obj (.cons "success".data (.bool true) .nil))
    (fun _ => .ok "\x7b\"tool\": \"calculator\", \"arguments\": \x7b\"operation\": \"add\", \"a\": 1, \"b\": 2\x7d\x7d".data)
    5 "q".data
    (fun tn args => ⟨.cons "success".data (.bool true) .nil, rfl⟩)
    (fun i _ => ⟨_, rfl, Or.inr ⟨.cons "tool".data (.str "calculator".data)
      (.cons "arguments".data
        (.obj (.cons "operation".data (.str "add".data)
          (.cons "a".data (.num 1) (.cons "b".data (.num 2) .nil)))) .nil),
      by decide, by decide, by decide⟩⟩)).1
  rw [h]
  have hc : execCount
      (fun _ => .ok "\x7b\"tool\": \"calculator\", \"arguments\": \x7b\"operation\": \"add\", \"a\": 1, \"b\": 2\x7d\x7d".data)
      5 0 none = 3 := by decide
  rw [hc]

lemma pyFindAux_append (c : Char) :
    ∀ (p s : Str), (∀ x ∈ p, x ≠ c) → ∀ i : Nat,
      pyFindAux (p ++ s) c i = pyFindAux s c (i + p.length) := by
  intro p
  induction p with
  | nil =>
    intro s _ i
    simp [pyFindAux]
  | cons x xs ih =>
    intro s hp i
    have hx : ¬ x = c := hp x (List.mem_cons_self _ _)
    simp only [List.cons_append, pyFindAux, hx, if_false, List.append_eq]
    rw [ih s (fun y hy => hp y (List.mem_cons_of_mem _ hy)) (i + 1)]
    congr 1
    simp [List.length_cons]
    omega

lemma pyRfindAux_none (c : Char) :
    ∀ s : Str, (∀ x ∈ s, x ≠ c) → ∀ i : Nat, pyRfindAux s c i = none := by
  intro s
  induction s with
  | nil => intro _ i; rfl
  | cons x xs ih =>
    intro hs i
    have hx : ¬ x = c := hs x (List.mem_cons_self _ _)
    simp only [pyRfindAux, ih (fun y hy => hs y (List.mem_cons_of_mem _ hy)) (i + 1),
      hx, if_false]

lemma pyRfindAux_append (c : Char) :
    ∀ (xs ys : Str) (i : Nat),
      pyRfindAux (xs ++ ys) c i =
        (match pyRfindAux ys c (i + xs.length) with
         | some j => some j
         | none => pyRfindAux xs c i) := by
  intro xs
  induction xs with
  | nil =>
    intro ys i
    simp only [List.nil_append, List.length_nil, Nat.add_zero, pyRfindAux]
    cases pyRfindAux ys c i <;> rfl
  | cons x t ih =>
    intro ys i
    simp only [List.cons_append, pyRfindAux, List.append_eq]
    rw [ih ys (i + 1)]
    simp only [List.length_cons]
    have hlen : i + 1 + t.length = i + (t.length + 1) := by omega
    rw [hlen]
    cases pyRfindAux ys c (i + (t.length + 1)) with
    | some j => rfl
    | none => rfl

/-- **C4 (counterexample).** The claim universally quantifies over
prefixes/suffixes "containing no braces", but the brace-free prefix `[` and
suffix `]` make the wrapped text `[\x7b\x7d]` itself valid JSON: the strict
parse succeeds with an *array* and the recovery path is never reached, so
classification differs from the bare object `\x7b\x7d`. -/
theorem C4_counterexample :
    (∀ x ∈ "[".data, x ≠ '\x7b' ∧ x ≠ '\x7d') ∧
    (∀ x ∈ "]".data, x ≠ '\x7b' ∧ x ≠ '\x7d') ∧
    jsonLoads "\x7b\x7d".data = some (.obj .nil) ∧
    parse_response ("[".data ++ "\x7b\x7d".data ++ "]".data) =
      some (.arr (.cons (.obj .nil) .nil)) ∧
    parse_response "\x7b\x7d".data = some (.obj .nil) ∧
    parse_response ("[".data ++ "\x7b\x7d".data ++ "]".data) ≠
      parse_response "\x7b\x7d".data := by
  refine ⟨by decide, by decide, by decide, by decide, by decide, by decide⟩

/-- **C4 (amended).** For every canonical JSON object text `J` (strictly
parsing to an object, beginning with `\x7b` and ending with `\x7d`) and every
brace-free prefix and suffix *such that the wrapped text does not itself
strictly parse as JSON*, the recovery path slices from the first `\x7b` to the
last `\x7d` — recovering exactly `J` — and strictly parses the slice, so the
wrapped text yields the same parsed record as `J` alone and the loop
classifies both identically. -/
theorem C4_amended_wrapped_extraction (p q J : Str) (v : JObj)
    (hp : ∀ x ∈ p, x ≠ '\x7b' ∧ x ≠ '\x7d')
    (hq : ∀ x ∈ q, x ≠ '\x7b' ∧ x ≠ '\x7d')
    (hJ : jsonLoads J = some (.obj v))
    (hhead : ∃ J' : Str, J = '\x7b' :: J')
    (hlast : ∃ J₁ : Str, J = J₁ ++ ['\x7d'])
    (hfail : jsonLoads (p ++ J ++ q) = none) :
    parse_response (p ++ J ++ q) = parse_response J ∧
    parse_response J = some (.obj v) := by
  have hJresp : parse_response J = some (.obj v) := by
    simp [parse_response, hJ, nullFold]
  refine ⟨?_, hJresp⟩
  obtain ⟨J', hJ'⟩ := hhead
  obtain ⟨J₁, hJ₁⟩ := hlast
  have hstart : pyFind (p ++ J ++ q) '\x7b' = (p.length : Int) := by
    unfold pyFind
    have h1 : p ++ J ++ q = p ++ (J ++ q) := by simp [List.append_assoc]
    rw [h1, pyFindAux_append '\x7b' p (J ++ q) (fun x hx => (hp x hx).1) 0]
    rw [hJ']
    simp [pyFindAux]
  have hrfind : pyRfind (p ++ J ++ q) '\x7d' = ((p.length + J₁.length : Nat) : Int) := by
    unfold pyRfind
    have h1 : p ++ J ++ q = (p ++ J₁) ++ ('\x7d' :: q) := by
      rw [hJ₁]
      simp [List.append_assoc]
    rw [h1, pyRfindAux_append '\x7d' (p ++ J₁) ('\x7d' :: q) 0]
    have hinner : pyRfindAux ('\x7d' :: q) '\x7d' (0 + (p ++ J₁).length) =
        some ((p ++ J₁).length) := by
      simp only [pyRfindAux, pyRfindAux_none '\x7d' q (fun x hx => (hq x hx).2)]
      simp
    rw [hinner]
    simp [List.length_append]
  have hJlen : J.length = J₁.length + 1 := by
    rw [hJ₁]
    simp
  have hslice : pySlice (p ++ J ++ q) (p.length : Int)
      (((p.length + J₁.length : Nat) : Int) + 1) = J := by
    unfold pySlice
    have h1 : p ++ J ++ q = p ++ (J ++ q) := by simp [List.append_assoc]
    have htn : ((p.length : Int)).toNat = p.length := by omega
    have htd : ((((p.length + J₁.length : Nat) : Int) + 1) - (p.length : Int)).toNat =
        J.length := by
      rw [hJlen]
      omega
    rw [h1, htn, htd, List.drop_left, List.take_left]
  unfold parse_response
  rw [hfail, hJ, hstart, hrfind]
  have hcond : ((p.length : Int) ≠ -1 ∧
      ((p.length + J₁.length : Nat) : Int) + 1 > (p.length : Int)) := by
    constructor
    · omega
    · omega
  rw [if_pos hcond, hslice, hJ]

/-- Witness for the amended C4: an object wrapped in prose parses to the
same record as the bare object. -/
theorem C4_witness :
    parse_response ("Here is the call: ".data ++ "\x7b\"done\": true\x7d".data ++
        " hope that helps.".data) =
      parse_response "\x7b\"done\": true\x7d".data ∧
    parse_response "\x7b\"done\": true\x7d".data =
      some (.obj (.cons "done".data (.bool true) .nil)) :=
  C4_amended_wrapped_extraction "Here is the call: ".data " hope that helps.".data
    "\x7b\"done\": true\x7d".data (.cons "done".data (.bool true) .nil)
    (by decide) (by decide) (by decide) ⟨_, rfl⟩ ⟨"\x7b\"done\": true".data, rfl⟩
    (by decide)

end ToolLLM
